import Mathlib

/-!
Verification of the content-adaptation and brand-voice-consistency engine of
the `marketgenius` repository.

Shallow embedding conventions:
* Python strings are `List Char` (one entry per code point, matching Python
  `len`/slicing semantics).
* Python floats are modelled as rationals `ℚ`; the literal `0.7` of the
  source becomes `7/10` (stated on `Int` as `10 * i > 7 * m` where the
  source compares `i > max_length * 0.7`).
* Fallible Python operations (attribute errors, `None` comparisons,
  pydantic validation) return `Except PyErr _`.
* Recursions that Python performs with regex scanning are given explicit
  fuel equal to the string length so that every definition reduces in the
  kernel; the fuel is always sufficient because each step consumes at least
  one character.
-/

set_option autoImplicit false

/-- Abbreviation for the embedding of Python `str`. -/
abbrev PyStr := List Char

/-- The characters Python `str.strip()` removes (`string.whitespace`). -/
def isPySpace (c : Char) : Bool :=
  c = ' ' || c = '\t' || c = '\n' || c = '\r' || c = '\x0b' || c = '\x0c'

/-- Python `str.lstrip()` (whitespace form). -/
def pyLstrip (s : PyStr) : PyStr := s.dropWhile isPySpace

/-- Python `str.rstrip()` (whitespace form). -/
def pyRstrip (s : PyStr) : PyStr := (s.reverse.dropWhile isPySpace).reverse

/-- Python `str.strip()` (whitespace form). -/
def pyStrip (s : PyStr) : PyStr := pyRstrip (pyLstrip s)

/-- Index of the last element of `s` satisfying `p`, if any
(the auxiliary behind Python `str.rfind`). -/
def rlastIdx (p : Char → Bool) : PyStr → Option Nat
  | [] => none
  | c :: t =>
    match rlastIdx p t with
    | some i => some (i + 1)
    | none => if p c then some 0 else none

/-- Python `s.rfind(c)` for a single-character needle: the highest index of
`c` in `s`, or `-1`. -/
def pyRfindChar (c : Char) (s : PyStr) : Int :=
  match rlastIdx (fun d => d = c) s with
  | some i => (i : Int)
  | none => -1

/-- Highest index at which `sub` occurs in `s`, if any
(the auxiliary behind Python `str.rfind` for substrings). -/
def rlastSub (sub : PyStr) : PyStr → Option Nat
  | [] => if sub = [] then some 0 else none
  | c :: t =>
    match rlastSub sub t with
    | some i => some (i + 1)
    | none => if sub.isPrefixOf (c :: t) then some 0 else none

/-- Python `s.rfind(sub)`: highest index at which `sub` occurs, or `-1`. -/
def pyRfindSub (sub : PyStr) (s : PyStr) : Int :=
  match rlastSub sub s with
  | some i => (i : Int)
  | none => -1

/-- Python `sub in s` (substring containment). -/
def pyContainsSub (sub : PyStr) (s : PyStr) : Bool :=
  (rlastSub sub s).isSome

/-- Python slice `s[:n]` where `n` may be negative
(a negative stop counts from the end, clamped at 0). -/
def pySliceTo (s : PyStr) (n : Int) : PyStr :=
  if 0 ≤ n then s.take n.toNat
  else s.take (s.length - min s.length (-n).toNat)

/-- Python `max(a, b)` on `int` results of `rfind` (used for the
sentence-boundary searches). -/
def pyMax (a b : Int) : Int := max a b

/-- Continuation marker appended by the Facebook, Instagram and YouTube
truncation helpers (`"..."`). -/
def ellipsisMarker : PyStr := "...".toList

/-- Continuation marker appended by `LinkedInAdapter._truncate_text`. -/
def liMarker : PyStr := "...\n\n(全文請參見完整文章)".toList

/-- Embedding of `FacebookAdapter._truncate_text` (src/marketgenius/platforms/facebook.py,
lines 347-369): keep the first `max_length` characters, back up to the last
space if one occurs at a positive index, strip, and append `"..."`. -/
def fb_truncate_text (text : PyStr) (max_length : Nat) : PyStr :=
  if text.length ≤ max_length then text
  else
    let truncated := text.take max_length
    let last_space := pyRfindChar ' ' truncated
    let truncated := if last_space > 0 then truncated.take last_space.toNat else truncated
    pyStrip truncated ++ ellipsisMarker

/-- Embedding of `InstagramAdapter._truncate_text` (src/marketgenius/platforms/instagram.py,
lines 416-438); its body is identical to the Facebook helper. -/
def ig_truncate_text (text : PyStr) (max_length : Nat) : PyStr :=
  if text.length ≤ max_length then text
  else
    let truncated := text.take max_length
    let last_space := pyRfindChar ' ' truncated
    let truncated := if last_space > 0 then truncated.take last_space.toNat else truncated
    pyStrip truncated ++ ellipsisMarker

/-- Embedding of `YouTubeAdapter._truncate_text` (src/marketgenius/platforms/youtube.py,
lines 579-612): prefer the last sentence boundary (`". "`, `"! "`, `"? "`)
when it lies beyond 70% of the budget (`last_sentence > max_length * 0.7`,
the float `0.7` modelled as `7/10`), in which case no marker is appended;
otherwise fall back to the last space and append `"..."`. -/
def yt_truncate_text (text : PyStr) (max_length : Nat) : PyStr :=
  if text.length ≤ max_length then text
  else
    let truncated := text.take max_length
    let last_sentence := pyMax (pyRfindSub ". ".toList truncated)
      (pyMax (pyRfindSub "! ".toList truncated) (pyRfindSub "? ".toList truncated))
    if 10 * last_sentence > 7 * (max_length : Int) then
      pyStrip (truncated.take (last_sentence.toNat + 1))
    else
      let last_space := pyRfindChar ' ' truncated
      let truncated := if last_space > 0 then truncated.take last_space.toNat else truncated
      pyStrip truncated ++ ellipsisMarker

/-- Embedding of `LinkedInAdapter._truncate_text` (src/marketgenius/platforms/linkedin.py,
lines 408-451): try a paragraph break (only when `"\n\n"` occurs in
`text[:max_length - 50]` and the break lies beyond 70% of the budget), then
a sentence boundary beyond 70% of the budget (appending a leading space
before the marker), then the last space, appending
`"...\n\n(全文請參見完整文章)"`. -/
def li_truncate_text (text : PyStr) (max_length : Nat) : PyStr :=
  if text.length ≤ max_length then text
  else
    let truncated := text.take max_length
    let last_para := pyRfindSub "\n\n".toList truncated
    if pyContainsSub "\n\n".toList (pySliceTo text ((max_length : Int) - 50)) ∧
        10 * last_para > 7 * (max_length : Int) then
      pyStrip (truncated.take last_para.toNat) ++ liMarker
    else
      let last_sentence := pyMax (pyRfindSub ". ".toList truncated)
        (pyMax (pyRfindSub "! ".toList truncated) (pyRfindSub "? ".toList truncated))
      if 10 * last_sentence > 7 * (max_length : Int) then
        pyStrip (truncated.take (last_sentence.toNat + 1)) ++ (' ' :: liMarker)
      else
        let last_space := pyRfindChar ' ' truncated
        let truncated := if last_space > 0 then truncated.take last_space.toNat else truncated
        pyStrip truncated ++ liMarker

/-- Truncation as the specification §4.1 words it (for refinement
comparison with the per-platform helpers above): search, in priority order,
for a cut point within the last 30% of the budget — a paragraph break, then
sentence-ending punctuation, then any whitespace — cut there, strip
trailing whitespace and append the marker; hard-cut at `max_length` only
when no such boundary lies in range. -/
def truncateSpec (marker : PyStr) (text : PyStr) (max_length : Nat) : PyStr :=
  if text.length ≤ max_length then text
  else
    let truncated := text.take max_length
    let inWindow : Int → Bool := fun i => 10 * i > 7 * (max_length : Int)
    let para := pyRfindSub "\n\n".toList truncated
    let sent := pyMax (pyRfindSub ". ".toList truncated)
      (pyMax (pyRfindSub "! ".toList truncated) (pyRfindSub "? ".toList truncated))
    let ws : Int :=
      match rlastIdx isPySpace truncated with
      | some i => (i : Int)
      | none => -1
    if inWindow para then pyRstrip (truncated.take para.toNat) ++ marker
    else if inWindow sent then pyRstrip (truncated.take (sent.toNat + 1)) ++ marker
    else if inWindow ws then pyRstrip (truncated.take ws.toNat) ++ marker
    else truncated ++ marker

/-- Python `\w` character class, on its ASCII fragment (the repository only
feeds it ASCII hashtag tokens in the scenarios proved below). -/
def isWordChar (c : Char) : Bool := c.isAlpha || c.isDigit || c = '_'

/-- Scanner behind the Python regex findall of pattern hash-then-word-run
(`#` followed by `\w+`): at each `#`, a nonempty
maximal run of word characters forms a match, and scanning resumes after
the run. The fuel starts at the string length; every step consumes at least
one character, so it never runs out. -/
def extractHashtagsAux : Nat → PyStr → List PyStr
  | 0, _ => []
  | _ + 1, [] => []
  | fuel + 1, c :: t =>
    if c = '#' then
      let tag := t.takeWhile isWordChar
      if tag = [] then extractHashtagsAux fuel t
      else tag :: extractHashtagsAux fuel (t.drop tag.length)
    else extractHashtagsAux fuel t

/-- Python hashtag extraction, the regex findall of the pattern above. -/
def extractHashtags (s : PyStr) : List PyStr := extractHashtagsAux s.length s

/-- Scanner behind the Python regex sub replacing each `#word` match by the
empty string: matched tokens are deleted, everything else is kept. -/
def removeHashtagsAux : Nat → PyStr → PyStr
  | 0, s => s
  | _ + 1, [] => []
  | fuel + 1, c :: t =>
    if c = '#' then
      let tag := t.takeWhile isWordChar
      if tag = [] then c :: removeHashtagsAux fuel t
      else removeHashtagsAux fuel (t.drop tag.length)
    else c :: removeHashtagsAux fuel t

/-- Python hashtag removal, the regex sub of the pattern above with the empty replacement. -/
def removeHashtags (s : PyStr) : PyStr := removeHashtagsAux s.length s

/-- Python `" ".join(items)`. -/
def joinSpace (items : List PyStr) : PyStr := (items.intersperse " ".toList).flatten

/-- Embedding of `InstagramAdapter.MAX_HASHTAGS`. -/
def IG_MAX_HASHTAGS : Nat := 30

/-- Embedding of `FacebookAdapter.MAX_HASHTAGS`. -/
def FB_MAX_HASHTAGS : Nat := 5

/-- Embedding of `InstagramAdapter._adapt_hashtags` (instagram.py lines 291-336): extract
inline tags, append the explicit tags not already among the inline tags
(the membership test is against the inline list only — Python evaluates the
comprehension before `extend` mutates the list), cap at 30 from the tail,
and reflow all tags to a trailing block when more than 3 inline tags were
found. -/
def ig_adapt_hashtags (text : PyStr) (existing_hashtags : Option (List PyStr)) :
    PyStr × List PyStr :=
  let text_hashtags := extractHashtags text
  let all_hashtags := text_hashtags ++
    (match existing_hashtags with
     | none => []
     | some ex => ex.filter (fun tag => decide (tag ∉ text_hashtags)))
  let all_hashtags :=
    if all_hashtags.length > IG_MAX_HASHTAGS then all_hashtags.take IG_MAX_HASHTAGS
    else all_hashtags
  if text_hashtags ≠ [] ∧ text_hashtags.length > 3 then
    let text_without := pyStrip (removeHashtags text)
    let hashtag_text := joinSpace (all_hashtags.map (fun tag => '#' :: tag))
    let final_text :=
      if text_without ≠ [] ∧ hashtag_text ≠ [] then
        text_without ++ "\n\n".toList ++ hashtag_text
      else text_without ++ hashtag_text
    (final_text, all_hashtags)
  else (text, all_hashtags)

/-- Embedding of `FacebookAdapter._adapt_hashtags` (facebook.py lines 266-303): same
merge and cap (cap 5); when more than 5 inline tags were found, all inline
tags are stripped from the body and the capped list is appended as
`" #tag"` suffixes. -/
def fb_adapt_hashtags (text : PyStr) (existing_hashtags : Option (List PyStr)) :
    PyStr × List PyStr :=
  let text_hashtags := extractHashtags text
  let all_hashtags := text_hashtags ++
    (match existing_hashtags with
     | none => []
     | some ex => ex.filter (fun tag => decide (tag ∉ text_hashtags)))
  let all_hashtags :=
    if all_hashtags.length > FB_MAX_HASHTAGS then all_hashtags.take FB_MAX_HASHTAGS
    else all_hashtags
  if text_hashtags.length > FB_MAX_HASHTAGS then
    let text_without := removeHashtags text
    let final_text := pyStrip text_without ++ (all_hashtags.map (fun tag => ' ' :: '#' :: tag)).flatten
    (final_text, all_hashtags)
  else (text, all_hashtags)

/-- Embedding of `Platform` enum (data/schemas.py lines 15-22). -/
inductive Platform where
  | facebook | instagram | linkedin | youtube | twitter | tiktok
deriving DecidableEq

/-- Embedding of `ContentType` enum (data/schemas.py lines 25-32). -/
inductive ContentType where
  | text | image | video | carousel | story | reel
deriving DecidableEq

/-- Embedding of `TextContent` (data/schemas.py lines 100-104). -/
structure TextContent where
  text : PyStr
  hashtags : Option (List PyStr) := none
  mentions : Option (List PyStr) := none
deriving DecidableEq

/-- Embedding of `ImageContent` (data/schemas.py lines 107-112). -/
structure ImageContent where
  prompt : PyStr
  image_url : Option PyStr := none
  alt_text : Option PyStr := none
  caption : Option PyStr := none
deriving DecidableEq

/-- Embedding of `VideoContent` (data/schemas.py lines 115-122). Note: the model has a
`video_url` field but no `thumbnail_url` field. -/
structure VideoContent where
  title : PyStr
  script : PyStr
  description : Option PyStr := none
  thumbnail_prompt : Option PyStr := none
  duration_seconds : Option Int := none
  video_url : Option PyStr := none
deriving DecidableEq

/-- Embedding of `ContentItem` (data/schemas.py lines 125-136); the `created_at`,
`updated_at` and `raw_request` fields (external datetime / free-form dict,
never read by the adapters) are omitted. -/
structure ContentItem where
  id : PyStr
  brand_id : PyStr
  platform : Platform
  content_type : ContentType
  text_content : Option TextContent := none
  image_content : Option ImageContent := none
  video_content : Option VideoContent := none
deriving DecidableEq

/-- Python exceptions that the embedded fragments can raise. -/
inductive PyErr where
  | typeError (msg : PyStr)
  | valueError (msg : PyStr)
  | attributeError (msg : PyStr)
deriving DecidableEq

/-- Python truthiness of an `Optional[str]` (`None` and `""` are falsy). -/
def pyTruthyStr : Option PyStr → Bool
  | none => false
  | some s => !s.isEmpty

/-- Python truthiness of an `Optional[int]` (`None` and `0` are falsy). -/
def pyTruthyInt : Option Int → Bool
  | none => false
  | some n => n != 0

/-- Python `x or dflt` for an `Optional[str]` `x`. -/
def pyOrStr (x : Option PyStr) (dflt : PyStr) : PyStr :=
  match x with
  | none => dflt
  | some s => if s.isEmpty then dflt else s

/-- Python `x > y` where `x : Optional[int]`: comparing `None` with an
`int` raises `TypeError` in Python 3. -/
def pyGtOptInt (x : Option Int) (y : Int) : Except PyErr Bool :=
  match x with
  | none => .error (.typeError "unorderable: NoneType and int".toList)
  | some v => .ok (decide (v > y))

/-- Body of the `ContentItem.validate_content_consistency` validator
(data/schemas.py lines 138-152), as the decision whether it raises: `ct` is
`values.get('content_type')` and `values` is the list of names of the
fields pydantic v1 has validated so far — never including the field
currently being validated. -/
def validate_content_consistency_raises (ct : Option ContentType)
    (values : List String) : Bool :=
  decide ((ct = some ContentType.text ∧ "text_content" ∉ values) ∨
    (ct = some ContentType.image ∧ "image_content" ∉ values) ∨
    (ct = some ContentType.video ∧ "video_content" ∉ values))

/-- pydantic v1 construction of a `ContentItem`: fields are validated in
declaration order; `values` accumulates the fields validated so far (the
current field is absent); the validator is attached to `content_type`,
`text_content`, `image_content` and `video_content` without `always=True`,
so for the three optional payload fields it runs only when the field is
explicitly supplied; a field whose validator raises is not added to
`values`. Returns `true` when construction raises `ValidationError`. -/
def contentItemConstructionRaises (ct : ContentType)
    (text_supplied image_supplied video_supplied : Bool) : Bool :=
  let values0 := ["id", "brand_id", "platform"]
  let r_ct := validate_content_consistency_raises none values0
  let values1 := values0 ++ ["content_type", "created_at", "updated_at"]
  let r_text := text_supplied && validate_content_consistency_raises (some ct) values1
  let values2 := values1 ++ if r_text then [] else ["text_content"]
  let r_image := image_supplied && validate_content_consistency_raises (some ct) values2
  let values3 := values2 ++ if r_image then [] else ["image_content"]
  let r_video := video_supplied && validate_content_consistency_raises (some ct) values3
  r_ct || r_text || r_image || r_video

/-- A Python dict value as the top-level adapter sees it: a string, or some
other object (opaque). -/
inductive PyVal where
  | str (s : PyStr)
  | obj (tag : Nat)
deriving DecidableEq

/-- A Python dict with string keys, insertion-ordered. -/
abbrev PyDict := List (String × PyVal)

/-- Python `key in d`. -/
def dictContains (d : PyDict) (k : String) : Bool :=
  d.any (fun kv => decide (kv.1 = k))

/-- Python `d[key]` lookup (as an `Option`). -/
def dictGet (d : PyDict) (k : String) : Option PyVal :=
  (d.find? (fun kv => decide (kv.1 = k))).map Prod.snd

/-- Python `d[key] = v`: replace in place, keeping insertion order, or
append a new key at the end. -/
def dictSet (d : PyDict) (k : String) (v : PyVal) : PyDict :=
  if dictContains d k then d.map (fun kv => if kv.1 = k then (k, v) else kv)
  else d ++ [(k, v)]

/-- Embedding of `PlatformAdapter._generic_adapt` (content/adapter.py lines 50-72): copy
the dict, set `adapted["platform"]`, default `adapted["notes"]` to `""`,
then append the disclaimer with `+=` (which needs the existing value to be
a string; on a non-string Python raises `TypeError`). -/
def generic_adapt (content : PyDict) (platform : PyStr) : Except PyErr PyDict :=
  let adapted := content
  let adapted := dictSet adapted "platform" (PyVal.str platform)
  let adapted :=
    if dictContains adapted "notes" then adapted
    else dictSet adapted "notes" (PyVal.str [])
  match dictGet adapted "notes" with
  | some (PyVal.str s) =>
    .ok (dictSet adapted "notes" (PyVal.str
      (s ++ "\nThis content has been generically adapted for ".toList ++ platform ++ ".".toList)))
  | _ => .error (.typeError "unsupported operand types for +=".toList)

/-- The keys of `PlatformAdapter.adapters` (content/adapter.py lines 22-27). -/
def registeredPlatforms : List PyStr :=
  ["instagram".toList, "facebook".toList, "linkedin".toList, "youtube".toList]

/-- Methods defined by `class InstagramAdapter`
(src/marketgenius/platforms/instagram.py). -/
def instagramAdapterMethods : List String :=
  ["__init__", "adapt_content", "adapt_to_caption", "adapt_image_content",
   "adapt_video_content", "_adapt_caption_length", "_adapt_hashtags",
   "_adapt_mentions", "_check_image_format", "_check_aspect_ratio",
   "_truncate_text", "get_preferred_image_dimensions",
   "get_preferred_video_dimensions"]

/-- Methods defined by `class FacebookAdapter`
(src/marketgenius/platforms/facebook.py). -/
def facebookAdapterMethods : List String :=
  ["__init__", "adapt_content", "adapt_text_content", "adapt_image_content",
   "adapt_video_content", "_adapt_text_length", "_adapt_hashtags",
   "_adapt_mentions", "_check_image_format", "_truncate_text"]

/-- Methods defined by `class LinkedInAdapter`
(src/marketgenius/platforms/linkedin.py). -/
def linkedinAdapterMethods : List String :=
  ["__init__", "adapt_content", "adapt_text_content", "adapt_image_content",
   "adapt_video_content", "_adapt_post_length", "_adapt_article_length",
   "_adapt_hashtags", "_adapt_mentions", "_check_image_format",
   "_truncate_text", "get_preferred_content_lengths",
   "get_professional_tone_recommendations"]

/-- Methods defined by `class YouTubeAdapter`
(src/marketgenius/platforms/youtube.py). -/
def youtubeAdapterMethods : List String :=
  ["__init__", "adapt_content", "adapt_video_content", "adapt_to_description",
   "adapt_to_thumbnail", "_adapt_title", "_adapt_description", "_extract_tags",
   "_is_title_seo_optimized", "_is_description_seo_optimized",
   "_has_timestamps", "_has_links", "_has_call_to_action",
   "_check_thumbnail_format", "_truncate_text", "_generate_title_from_text",
   "get_optimal_video_settings"]

/-- Method table of the adapter instance registered under platform key `p`. -/
def adapterMethodNames (p : PyStr) : List String :=
  if p = "instagram".toList then instagramAdapterMethods
  else if p = "facebook".toList then facebookAdapterMethods
  else if p = "linkedin".toList then linkedinAdapterMethods
  else youtubeAdapterMethods

/-- ASCII lower-casing, Python `str.lower()` on the ASCII fragment. -/
def pyLower (s : PyStr) : PyStr := s.map Char.toLower

/-- Embedding of `PlatformAdapter.adapt_content` (content/adapter.py lines 29-48):
lower-case the platform; an unregistered platform gets `_generic_adapt`;
a registered platform executes
`self.adapters[platform].adapt(content, business_info)`, and Python first
resolves the attribute `adapt` on the adapter instance, raising
`AttributeError` when the class defines no such method. The `.ok` arm of
that lookup is unreachable because none of the four adapter classes listed
above defines a method named `adapt`. -/
def platformAdapter_adapt_content (content : PyDict) (platform : PyStr) :
    Except PyErr PyDict :=
  let p := pyLower platform
  if p ∉ registeredPlatforms then generic_adapt content p
  else if "adapt" ∈ adapterMethodNames p then .ok content
  else .error (.attributeError "object has no attribute adapt".toList)

/-- Python `str(n)` for ints (only used inside advisory message strings). -/
def intToPyStr (n : Int) : PyStr := (toString n).toList

/-- Python `text.split()`: split on whitespace runs, dropping empties. -/
def pySplitWsAux : PyStr → PyStr → List PyStr
  | [], acc => if acc.isEmpty then [] else [acc.reverse]
  | c :: t, acc =>
    if isPySpace c then
      if acc.isEmpty then pySplitWsAux t [] else acc.reverse :: pySplitWsAux t []
    else pySplitWsAux t (c :: acc)

/-- Python `text.split()`. -/
def pySplitWs (s : PyStr) : List PyStr := pySplitWsAux s []

/-- Python `text.split(sep)` for a one-character separator (keeps empties,
always returns at least one piece). -/
def splitOnCharAux (sep : Char) : PyStr → PyStr → List PyStr
  | [], acc => [acc.reverse]
  | c :: t, acc =>
    if c = sep then acc.reverse :: splitOnCharAux sep t []
    else splitOnCharAux sep t (c :: acc)

/-- Python `text.split(sep)` for a one-character separator. -/
def splitOnChar (sep : Char) (s : PyStr) : List PyStr := splitOnCharAux sep s []

/-- The result shape `{"success": ..., "error"?: ..., "content": ...,
"metadata"?: ...}` shared by every adapter method. -/
structure AdaptOutcome (M : Type) where
  success : Bool
  error : Option PyStr := none
  content : ContentItem
  metadata : Option M := none
deriving DecidableEq

/-- Embedding of `InstagramAdapter.MAX_CAPTION_LENGTH`. -/
def IG_MAX_CAPTION_LENGTH : Nat := 2200

/-- Embedding of `InstagramAdapter._adapt_caption_length` (instagram.py lines 274-289). -/
def ig_adapt_caption_length (caption : PyStr) : PyStr :=
  if caption.length ≤ IG_MAX_CAPTION_LENGTH then caption
  else ig_truncate_text caption IG_MAX_CAPTION_LENGTH

/-- The metadata dict built by `InstagramAdapter.adapt_video_content`. -/
structure IgVideoMetadata where
  platform : PyStr
  content_type : PyStr
  video_type : PyStr
  description_length : Nat
  duration_seconds : Option Int
  duration_valid : Bool
  hashtag_count : Nat
  recommendations : List PyStr
deriving DecidableEq

/-- Embedding of `InstagramAdapter.adapt_video_content` (instagram.py lines 204-272).
The duration advisories (lines 233-242) test
`if content_item.video_content.duration_seconds:` and so skip `None`, but
the metadata entry `"video_type"` (line 248) evaluates
`content_item.video_content.duration_seconds > self.MAX_FEED_VIDEO_SECONDS`
unguarded, which raises `TypeError` when `duration_seconds` is `None`. -/
def ig_adapt_video_content (item : ContentItem) :
    Except PyErr (AdaptOutcome IgVideoMetadata) :=
  match item.video_content with
  | none => .ok { success := false, error := some "缺少影片內容".toList, content := item }
  | some vc =>
    let description := pyOrStr vc.description []
    let adapted0 := ig_adapt_caption_length description
    let adapted_description := (ig_adapt_hashtags adapted0 none).1
    let hashtags := (ig_adapt_hashtags adapted0 none).2
    let adapted_content :=
      { item with video_content := some { vc with description := some adapted_description } }
    let dv :=
      if pyTruthyInt vc.duration_seconds then
        match vc.duration_seconds with
        | some duration =>
          if duration > 90 then
            (false, "影片超出 Instagram Reels 最大長度 (".toList ++ intToPyStr duration ++
              " 秒 > ".toList ++ intToPyStr 90 ++ " 秒)".toList)
          else if duration > 60 then
            (true, "影片長度 (".toList ++ intToPyStr duration ++
              " 秒) 超出 Feed 影片限制 (".toList ++ intToPyStr 60 ++ " 秒)，但適合 Reels".toList)
          else (true, [])
        | none => (true, [])
      else (true, [])
    do
      let is_reels ← pyGtOptInt vc.duration_seconds 60
      let recommendations :=
        (if !dv.2.isEmpty then [dv.2] else []) ++
        (if !pyTruthyStr vc.thumbnail_prompt then ["添加自定義縮略圖以提高點擊率".toList] else []) ++
        (if hashtags.isEmpty then ["添加 5-15 個相關主題標籤以提高發現性".toList]
         else if hashtags.length < 5 then
           ["增加使用的主題標籤數量，Instagram 上 5-15 個主題標籤效果最佳".toList]
         else [])
      pure {
        success := true
        content := adapted_content
        metadata := some {
          platform := "instagram".toList
          content_type := "video".toList
          video_type := if is_reels then "reels".toList else "feed".toList
          description_length := adapted_description.length
          duration_seconds := vc.duration_seconds
          duration_valid := dv.1
          hashtag_count := hashtags.length
          recommendations := recommendations } }

/-- Thumbnail formats accepted by `YouTubeAdapter._check_thumbnail_format`. -/
def YT_ALLOWED_THUMBNAIL_FORMATS : List PyStr :=
  [".jpg".toList, ".jpeg".toList, ".png".toList, ".gif".toList, ".bmp".toList]

/-- Embedding of `YouTubeAdapter._check_thumbnail_format` (youtube.py lines 552-577). -/
def yt_check_thumbnail_format (image_url : PyStr) : Bool × PyStr :=
  if image_url.isEmpty then (false, "缺少圖像 URL".toList)
  else
    let lower_url := pyLower image_url
    if YT_ALLOWED_THUMBNAIL_FORMATS.any (fun fmt => fmt.isSuffixOf lower_url) then
      (true, "圖像格式有效，確保尺寸為 1280x720 (16:9)".toList)
    else
      (false, "圖像格式可能不受支持，YouTube 支持: .jpg, .jpeg, .png, .gif, .bmp".toList)

/-- Embedding of `YouTubeAdapter.IDEAL_TITLE_LENGTH`. -/
def YT_IDEAL_TITLE_LENGTH : Nat := 60

/-- Embedding of `YouTubeAdapter.MAX_TITLE_LENGTH`. -/
def YT_MAX_TITLE_LENGTH : Nat := 100

/-- Embedding of `YouTubeAdapter._generate_title_from_text` (youtube.py lines 614-643). -/
def yt_generate_title_from_text (text : PyStr) : PyStr :=
  if text.isEmpty then "YouTube 影片".toList
  else
    let first_sentence := pyStrip ((splitOnChar '.' text).headD [])
    let words := pySplitWs first_sentence
    let first_sentence :=
      if words.length > 10 then joinSpace (words.take 10) ++ "...".toList else first_sentence
    let first_sentence :=
      if first_sentence.length > YT_IDEAL_TITLE_LENGTH then
        yt_truncate_text first_sentence YT_IDEAL_TITLE_LENGTH
      else first_sentence
    match first_sentence with
    | [] => []
    | c :: rest => if 'a' ≤ c ∧ c ≤ 'z' then Char.toUpper c :: rest else c :: rest

/-- Embedding of `YouTubeAdapter._adapt_title` (youtube.py lines 322-348): empty titles
become a placeholder, over-long titles are truncated, and a leading ASCII
lowercase letter (the Python regex match of a leading a-to-z) is upper-cased. -/
def yt_adapt_title (title : PyStr) : PyStr :=
  if title.isEmpty then "需要提供影片標題".toList
  else
    let title := if title.length > YT_MAX_TITLE_LENGTH then
      yt_truncate_text title YT_MAX_TITLE_LENGTH else title
    match title with
    | [] => []
    | c :: rest => if 'a' ≤ c ∧ c ≤ 'z' then Char.toUpper c :: rest else c :: rest

/-- The declared fields of the pydantic model `VideoContent`
(data/schemas.py lines 115-122); pydantic v1 `__setattr__` raises
`ValueError` for any name not in this list. -/
def videoContentFieldNames : List String :=
  ["title", "script", "description", "thumbnail_prompt", "duration_seconds", "video_url"]

/-- The metadata dict built by `YouTubeAdapter.adapt_to_thumbnail`. -/
structure YtThumbnailMetadata where
  platform : PyStr
  content_type : PyStr
  original_type : PyStr
  has_image_url : Bool
  has_prompt : Bool
  note : PyStr
  recommendations : List PyStr
deriving DecidableEq

/-- Embedding of `YouTubeAdapter.adapt_to_thumbnail` (youtube.py lines 248-320). When the
image URL is truthy and its extension passes `_check_thumbnail_format`, the
source executes `adapted_content.video_content.thumbnail_url = image_url`
(line 291); `VideoContent` declares no `thumbnail_url` field, so pydantic
v1 raises `ValueError` there. -/
def yt_adapt_to_thumbnail (item : ContentItem) :
    Except PyErr (AdaptOutcome YtThumbnailMetadata) :=
  match item.image_content with
  | none => .ok { success := false, error := some "缺少圖像內容".toList, content := item }
  | some ic =>
    let image_url := ic.image_url
    let image_prompt := ic.prompt
    let caption := pyOrStr ic.caption []
    let title := if !caption.isEmpty then yt_generate_title_from_text caption else "影片標題".toList
    let vc0 :=
      match item.video_content with
      | none =>
        { title := title, script := "[需要提供影片腳本]".toList,
          description := some "[需要提供影片描述]".toList : VideoContent }
      | some vc => vc
    do
      let vc1 ←
        if pyTruthyStr image_url then
          let url := image_url.getD []
          if (yt_check_thumbnail_format url).1 then
            if "thumbnail_url" ∈ videoContentFieldNames then
              pure vc0
            else
              Except.error (.valueError "VideoContent object has no field thumbnail_url".toList)
          else
            pure { vc0 with thumbnail_prompt := some ("YouTube 縮略圖: ".toList ++
              (if image_prompt.isEmpty then "高品質 YouTube 影片縮略圖".toList else image_prompt)) }
        else
          let tp := if image_prompt.isEmpty then "高品質 YouTube 影片縮略圖".toList else image_prompt
          pure { vc0 with thumbnail_prompt := some tp }
      let adapted_content := { item with content_type := ContentType.video, video_content := some vc1 }
      pure {
        success := true
        content := adapted_content
        metadata := some {
          platform := "youtube".toList
          content_type := "thumbnail".toList
          original_type := "image".toList
          has_image_url := pyTruthyStr image_url
          has_prompt := !image_prompt.isEmpty
          note := "圖像已設置為影片縮略圖，但還需要提供實際影片、標題和描述".toList
          recommendations :=
            ["YouTube 縮略圖尺寸應為 1280x720 像素 (16:9)".toList,
             "縮略圖應使用鮮明的顏色，包含清晰的文字和引人注目的圖像".toList,
             "文字應控制在 1-3 個簡短詞語，避免太多文字".toList,
             "縮略圖應與標題相互補充，而不是重複相同信息".toList] } }

/-- Embedding of `FacebookAdapter.MAX_POST_LENGTH`. -/
def FB_MAX_POST_LENGTH : Nat := 63206

/-- Embedding of `FacebookAdapter.IDEAL_POST_LENGTH`. -/
def FB_IDEAL_POST_LENGTH : Nat := 40

/-- Embedding of `FacebookAdapter._adapt_text_length` (facebook.py lines 249-264). -/
def fb_adapt_text_length (text : PyStr) : PyStr :=
  if text.length ≤ FB_MAX_POST_LENGTH then text
  else fb_truncate_text text FB_MAX_POST_LENGTH

/-- Embedding of `FacebookAdapter._adapt_mentions` (facebook.py lines 305-323): computes
the regex matches and returns the text unchanged. -/
def fb_adapt_mentions (text : PyStr) : PyStr := text

/-- The metadata dict built by `FacebookAdapter.adapt_text_content`. -/
structure FbTextMetadata where
  platform : PyStr
  content_type : PyStr
  character_count : Nat
  word_count : Nat
  hashtag_count : Nat
  is_within_limits : Bool
  recommendations : List PyStr
deriving DecidableEq

/-- Embedding of `FacebookAdapter.adapt_text_content` (facebook.py lines 58-115). -/
def fb_adapt_text_content (item : ContentItem) : AdaptOutcome FbTextMetadata :=
  match item.text_content with
  | none => { success := false, error := some "缺少文本內容".toList, content := item }
  | some tc =>
    let original_text := tc.text
    let adapted1 := fb_adapt_text_length original_text
    let adapted_text := (fb_adapt_hashtags adapted1 tc.hashtags).1
    let hashtags := (fb_adapt_hashtags adapted1 tc.hashtags).2
    let adapted_text := fb_adapt_mentions adapted_text
    let adapted_content :=
      { item with text_content := some { tc with text := adapted_text, hashtags := some hashtags } }
    let recommendations :=
      (if (pySplitWs adapted_text).length > FB_IDEAL_POST_LENGTH * 2 then
         ["考慮縮短貼文，Facebook 上較短的貼文（40-80 詞）通常表現更好".toList] else []) ++
      (if hashtags.isEmpty ∨ hashtags.length < 2 then
         ["考慮添加 2-3 個相關主題標籤以提高發現性".toList] else [])
    {
      success := true
      content := adapted_content
      metadata := some {
        platform := "facebook".toList
        content_type := "text".toList
        character_count := adapted_text.length
        word_count := (pySplitWs adapted_text).length
        hashtag_count := hashtags.length
        is_within_limits := decide (adapted_text.length ≤ FB_MAX_POST_LENGTH)
        recommendations := recommendations } }

/-- The apostrophe character (used inside suggestion strings). -/
def apos : Char := Char.ofNat 39

/-- Embedding of `BrandStyleAttribute` (data/schemas.py lines 46-50); pydantic bounds the
`value` field to `[0, 1]` (`Field(..., ge=0.0, le=1.0)`), carried as a
hypothesis by the theorems below. -/
structure BrandStyleAttribute where
  name : PyStr
  value : ℚ
  description : Option PyStr := none

/-- Embedding of `BrandModel` (data/schemas.py lines 62-80); only the fields the scorer
reads are retained (colors, fonts, logo and timestamps are display data
never touched by `BrandStyleKeeper`). -/
structure BrandModel where
  id : PyStr
  name : PyStr
  keywords : List PyStr := []
  style_attributes : List BrandStyleAttribute := []
  target_audience : Option (List PyStr) := none

/-- The NLTK `word_tokenize` / `sent_tokenize` functions are external
collaborators; the scorer is embedded parametrically in them. -/
abbrev Tokenizer := PyStr → List PyStr

/-- Python `str.count(sub)` for a nonempty needle: non-overlapping
occurrences, scanning left to right (fuelled by the string length, which
always suffices since each step consumes at least one character). -/
def pyCountSubAux (sub : PyStr) : Nat → PyStr → Nat
  | 0, _ => 0
  | _ + 1, [] => 0
  | fuel + 1, c :: t =>
    if !sub.isEmpty ∧ sub.isPrefixOf (c :: t) then
      1 + pyCountSubAux sub fuel ((c :: t).drop sub.length)
    else pyCountSubAux sub fuel t

/-- Python `s.count(sub)` for a nonempty needle. -/
def pyCountSub (sub s : PyStr) : Nat := pyCountSubAux sub s.length s

/-- Summed occurrence counts of a marker list
(`sum(content_lower.count(marker) for marker in markers)`). -/
def countMarkers (markers : List PyStr) (content_lower : PyStr) : Nat :=
  (markers.map (fun m => pyCountSub m content_lower)).sum

/-- Python `content.count(c)` for a single character. -/
def countChar (c : Char) (s : PyStr) : Nat := s.count c

/-- Python `", ".join(items)`. -/
def joinCommaSpace (items : List PyStr) : PyStr := (items.intersperse ", ".toList).flatten

/-- Lower-cased substring test `keyword.lower() in content.lower()`. -/
def lowerContains (kw content : PyStr) : Bool :=
  pyContainsSub (pyLower kw) (pyLower content)

/-- The keyword detail dict of `_check_keywords`. The `coverage` display
string and the `status` key of the no-keyword branch are omitted; the
no-keyword branch is modelled by empty lists, which reproduces the
`keyword_details.get("missing_keywords", [])` reads in `check_consistency`. -/
structure KeywordDetails where
  found_keywords : List PyStr
  missing_keywords : List PyStr

/-- Embedding of `BrandStyleKeeper._check_keywords` (voice_keeper.py lines 201-239).
The NLTK-tokenized `word_set` computed at lines 214-217 is dead code (the
loop tests `keyword.lower() in content.lower()` directly) and is omitted. -/
def check_keywords (brand_model : Option BrandModel) (content : PyStr) :
    ℚ × KeywordDetails :=
  match brand_model with
  | none => (1, { found_keywords := [], missing_keywords := [] })
  | some bm =>
    if bm.keywords.isEmpty then (1, { found_keywords := [], missing_keywords := [] })
    else
      let found_keywords := bm.keywords.filter (fun kw => lowerContains kw content)
      let missing_keywords := bm.keywords.filter (fun kw => !lowerContains kw content)
      ((found_keywords.length : ℚ) / (bm.keywords.length : ℚ),
        { found_keywords := found_keywords, missing_keywords := missing_keywords })

/-- The sentence-length detail dict; `none` models a key that is absent
(the empty-content branch returns `{"status": ...}`), matching the
`.get("avg_length", 0)` / `.get("ideal_length", 15)` reads. -/
structure SentenceLengthDetails where
  avg_length : Option ℚ
  ideal_length : Option ℚ

/-- The `ideal_length` loop of `_check_sentence_length` (voice_keeper.py
lines 261-267): start at 15; each attribute named concise/brief lowers it
to `10 * (1 - value) + 6`, each named detailed/elaborate raises it to
`15 + 10 * value` (later attributes overwrite earlier ones). -/
def idealSentenceLength (brand_model : Option BrandModel) : ℚ :=
  let attrs := match brand_model with
    | none => []
    | some bm => bm.style_attributes
  attrs.foldl (fun ideal attr =>
    if pyLower attr.name ∈ ["簡潔".toList, "簡短".toList, "concise".toList, "brief".toList] then
      10 * (1 - attr.value) + 6
    else if pyLower attr.name ∈ ["詳細".toList, "詳盡".toList, "detailed".toList, "elaborate".toList] then
      15 + 10 * attr.value
    else ideal) 15

/-- Embedding of `BrandStyleKeeper._check_sentence_length` (voice_keeper.py lines
241-279). -/
def check_sentence_length (brand_model : Option BrandModel) (wt st : Tokenizer)
    (content : PyStr) : ℚ × SentenceLengthDetails :=
  let sentences := st content
  if sentences.isEmpty then (0, { avg_length := none, ideal_length := none })
  else
    let lengths := sentences.map (fun s => (wt s).length)
    let avg_length : ℚ := (lengths.sum : ℚ) / (lengths.length : ℚ)
    let ideal_length := idealSentenceLength brand_model
    let deviation := |avg_length - ideal_length| / ideal_length
    (max 0 (1 - deviation),
      { avg_length := some avg_length, ideal_length := some ideal_length })

/-- Formal marker words of `_evaluate_formality`. -/
def formalMarkers : List PyStr :=
  ["furthermore".toList, "therefore".toList, "consequently".toList,
   "nevertheless".toList, "regarding".toList, "accordingly".toList,
   "hereby".toList, "thus".toList, "hence".toList, "wherein".toList]

/-- Informal marker words of `_evaluate_formality`. -/
def informalMarkers : List PyStr :=
  ["anyway".toList, "well".toList, "you know".toList, "kind of".toList,
   "sort of".toList, "like".toList, "stuff".toList, "thing".toList,
   "okay".toList, "OK".toList, "guys".toList, "pretty".toList,
   "really".toList, "gonna".toList, "wanna".toList]

/-- Contraction suffixes of `_evaluate_formality` (built with `apos` to
keep the apostrophes out of the string literals). -/
def contractionMarkers : List PyStr :=
  [['n', apos, 't'], [apos, 'l', 'l'], [apos, 'r', 'e'],
   [apos, 'v', 'e'], [apos, 'm'], [apos, 'd']]

/-- Embedding of `BrandStyleKeeper._evaluate_formality` (voice_keeper.py lines 373-409). -/
def evaluate_formality (wt st : Tokenizer) (content : PyStr) : ℚ :=
  let content_lower := pyLower content
  let formal_count := countMarkers formalMarkers content_lower
  let informal_count := countMarkers informalMarkers content_lower +
    countMarkers contractionMarkers content_lower
  if formal_count + informal_count = 0 then 1/2
  else
    let formality_score : ℚ := (formal_count : ℚ) / ((formal_count : ℚ) + (informal_count : ℚ))
    let sentences := st content
    let avg_length : ℚ :=
      if sentences.isEmpty then 0
      else ((sentences.map (fun s => (wt s).length)).sum : ℚ) / (sentences.length : ℚ)
    let length_factor := min 1 (avg_length / 20)
    7/10 * formality_score + 3/10 * length_factor

/-- Professional marker words of `_evaluate_professionalism`. -/
def professionalMarkers : List PyStr :=
  ["analysis".toList, "research".toList, "data".toList, "methodology".toList,
   "results".toList, "implement".toList, "strategy".toList, "objective".toList,
   "criteria".toList, "evaluation".toList]

/-- Embedding of `BrandStyleKeeper._evaluate_professionalism` (voice_keeper.py lines
411-437). -/
def evaluate_professionalism (wt : Tokenizer) (content : PyStr) : ℚ :=
  let content_lower := pyLower content
  let marker_count := countMarkers professionalMarkers content_lower
  let word_count := (wt content_lower).length
  if word_count = 0 then 0
  else min 1 ((marker_count : ℚ) / (word_count : ℚ) * 20)

/-- Humor marker words of `_evaluate_humor`. -/
def humorMarkers : List PyStr :=
  ["laugh".toList, "funny".toList, "joke".toList, "humor".toList,
   "witty".toList, "haha".toList, "lol".toList, "smile".toList,
   "amusing".toList, "hilarious".toList, "ironic".toList,
   "sarcastic".toList, "playful".toList, "teasing".toList]

/-- Embedding of `BrandStyleKeeper._evaluate_humor` (voice_keeper.py lines 439-458). -/
def evaluate_humor (content : PyStr) : ℚ :=
  let content_lower := pyLower content
  let exclamations := countChar '!' content
  let questions := countChar '?' content
  let marker_count := countMarkers humorMarkers content_lower
  min 1 ((marker_count : ℚ) * (3/10) + (exclamations : ℚ) * (1/10) + (questions : ℚ) * (1/20))

/-- Emotion words of `_evaluate_emotion`. -/
def emotionalWords : List PyStr :=
  ["love".toList, "hate".toList, "excited".toList, "thrilled".toList,
   "amazing".toList, "terrible".toList, "wonderful".toList, "awful".toList,
   "delighted".toList, "disappointed".toList, "happy".toList, "sad".toList,
   "angry".toList, "joyful".toList, "proud".toList, "ashamed".toList,
   "grateful".toList, "hurt".toList, "inspired".toList, "devastated".toList]

/-- Embedding of `BrandStyleKeeper._evaluate_emotion` (voice_keeper.py lines 460-486). -/
def evaluate_emotion (wt : Tokenizer) (content : PyStr) : ℚ :=
  let content_lower := pyLower content
  let exclamations := countChar '!' content
  let emotion_count := countMarkers emotionalWords content_lower
  let word_count := (wt content_lower).length
  if word_count = 0 then 0
  else min 1 ((emotion_count : ℚ) / (word_count : ℚ) * 15 + (exclamations : ℚ) * (1/10))

/-- Filler words of `_evaluate_conciseness`. -/
def fillerWords : List PyStr :=
  ["basically".toList, "actually".toList, "literally".toList,
   "virtually".toList, "definitely".toList, "certainly".toList,
   "probably".toList, "essentially".toList, "totally".toList,
   "completely".toList, "absolutely".toList, "really".toList,
   "very".toList, "quite".toList, "somewhat".toList, "rather".toList]

/-- Embedding of `BrandStyleKeeper._evaluate_conciseness` (voice_keeper.py lines
488-514). -/
def evaluate_conciseness (wt st : Tokenizer) (content : PyStr) : ℚ :=
  let sentences := st content
  if sentences.isEmpty then 0
  else
    let avg_length : ℚ := ((sentences.map (fun s => (wt s).length)).sum : ℚ) / (sentences.length : ℚ)
    let filler_count := countMarkers fillerWords (pyLower content)
    let length_factor := max 0 (1 - avg_length / 20)
    let filler_factor := max 0 (1 - (filler_count : ℚ) / 10)
    7/10 * length_factor + 3/10 * filler_factor

/-- Indirect marker phrases of `_evaluate_directness`. -/
def indirectMarkers : List PyStr :=
  ["perhaps".toList, "maybe".toList, "might".toList, "could".toList,
   "possibly".toList, "potentially".toList, "seemingly".toList,
   "appears to".toList, "it seems".toList, "somewhat".toList,
   "rather".toList, "in a sense".toList, "from a certain perspective".toList,
   "one might say".toList]

/-- Direct marker phrases of `_evaluate_directness`. -/
def directMarkers : List PyStr :=
  ["definitely".toList, "absolutely".toList, "certainly".toList,
   "clearly".toList, "obviously".toList, "without doubt".toList,
   "must".toList, "always".toList, "never".toList, "undoubtedly".toList]

/-- Embedding of `BrandStyleKeeper._evaluate_directness` (voice_keeper.py lines
516-549). -/
def evaluate_directness (st : Tokenizer) (content : PyStr) : ℚ :=
  let content_lower := pyLower content
  let sentences := st content
  let question_count := (sentences.filter (fun s => "?".toList.isSuffixOf (pyStrip s))).length
  let question_ratio : ℚ :=
    if sentences.isEmpty then 0 else (question_count : ℚ) / (sentences.length : ℚ)
  let indirect_count := countMarkers indirectMarkers content_lower
  let direct_count := countMarkers directMarkers content_lower
  let marker_score : ℚ :=
    if indirect_count + direct_count = 0 then 1/2
    else (direct_count : ℚ) / ((indirect_count : ℚ) + (direct_count : ℚ))
  marker_score * (1 - question_ratio * (1/2))

/-- Embedding of `BrandStyleKeeper._evaluate_attribute` (voice_keeper.py lines 315-371):
dispatch on the (lower-cased) attribute name to the six evaluators, with a
neutral measured value of `0.5` for unknown names, then score
`max(0, 1 - |measured - target|)`. -/
def evaluate_attribute (wt st : Tokenizer) (content : PyStr) (attr_name : PyStr)
    (target_value : ℚ) : ℚ × PyStr :=
  let attribute_lower := pyLower attr_name
  let r :=
    if attribute_lower ∈ ["正式".toList, "formal".toList] then
      let s := evaluate_formality wt st content
      (s, if s < target_value then "使用更正式的用語和句式".toList else "略微減少正式程度".toList)
    else if attribute_lower ∈ ["專業".toList, "professional".toList] then
      let s := evaluate_professionalism wt content
      (s, if s < target_value then "增加專業術語和行業詞彙".toList else "簡化一些專業術語".toList)
    else if attribute_lower ∈ ["幽默".toList, "humorous".toList] then
      let s := evaluate_humor content
      (s, if s < target_value then "增加一些輕鬆、幽默的表達".toList else "減少幽默元素，增加正式內容".toList)
    else if attribute_lower ∈ ["情感".toList, "emotional".toList] then
      let s := evaluate_emotion wt content
      (s, if s < target_value then "使用更具情感的語言和表達".toList else "使用更客觀、中性的語言".toList)
    else if attribute_lower ∈ ["簡潔".toList, "concise".toList] then
      let s := evaluate_conciseness wt st content
      (s, if s < target_value then "精簡內容，刪除冗餘表達".toList else "添加更多細節和描述".toList)
    else if attribute_lower ∈ ["直接".toList, "direct".toList] then
      let s := evaluate_directness st content
      (s, if s < target_value then "更直接地表達主要觀點".toList else "使用更委婉、間接的表達方式".toList)
    else
      ((1/2 : ℚ), "調整 ".toList ++ apos :: (attr_name ++ apos :: " 特性以符合品牌風格".toList))
  let gap := |r.1 - target_value|
  (max 0 (1 - gap), r.2)

/-- One entry of the `attributes` dict of `_check_style_attributes`
(keyed by the attribute name; the brands considered here have distinct
attribute names, for which the insertion-ordered dict and this list
coincide). -/
structure StyleAttributeDetail where
  name : PyStr
  target_value : ℚ
  score : ℚ
  suggestion : PyStr

/-- The style detail dict; the no-attribute branch of the source returns
`{"status": ...}` with no `attributes` key, modelled by the empty list
(matching the `style_details.get("attributes", {})` read in
`check_consistency`). -/
structure StyleDetails where
  attributes : List StyleAttributeDetail
  overall_score : ℚ

/-- Embedding of `BrandStyleKeeper._check_style_attributes` (voice_keeper.py lines
281-313). -/
def check_style_attributes (brand_model : Option BrandModel) (wt st : Tokenizer)
    (content : PyStr) : ℚ × StyleDetails :=
  match brand_model with
  | none => (1, { attributes := [], overall_score := 1 })
  | some bm =>
    if bm.style_attributes.isEmpty then (1, { attributes := [], overall_score := 1 })
    else
      let attributes := bm.style_attributes.map (fun attr =>
        let r := evaluate_attribute wt st content attr.name attr.value
        { name := attr.name, target_value := attr.value, score := r.1,
          suggestion := r.2 : StyleAttributeDetail })
      let total_score := (attributes.map StyleAttributeDetail.score).sum
      let avg_score := total_score / (bm.style_attributes.length : ℚ)
      (avg_score, { attributes := attributes, overall_score := avg_score })

/-- The `details` dict assembled by `check_consistency`. -/
structure ConsistencyDetails where
  keywords : KeywordDetails
  sentence_length : SentenceLengthDetails
  style : StyleDetails
  model_score : Option ℚ

/-- The result dict of `check_consistency`. -/
structure ConsistencyResult where
  consistency_score : ℚ
  suggestions : List PyStr
  details : ConsistencyDetails

/-- The weights record of `check_consistency`. -/
structure ConsistencyWeights where
  keywords : ℚ
  sentence_length : ℚ
  style : ℚ
  model : ℚ

/-- The `weights` dict of `check_consistency` (voice_keeper.py lines
112-124): initialised to keyword 0.2 / sentence 0.1 / style 0.3 / model
0.4-or-0.0, then overridden to keyword 0.4 / sentence 0.2 / style 0.4 when
no language model is configured. -/
def consistencyWeights (has_language_model : Bool) : ConsistencyWeights :=
  let w : ConsistencyWeights :=
    { keywords := 1/5, sentence_length := 1/10, style := 3/10,
      model := if has_language_model then 2/5 else 0 }
  if !has_language_model then
    { w with keywords := 2/5, sentence_length := 1/5, style := 2/5 }
  else w

/-- Embedding of `BrandStyleKeeper.check_consistency` (voice_keeper.py lines 68-165),
parametric in the NLTK tokenizers and in the optional external language
model score function (`self.language_model.score_text`). -/
def check_consistency (wt st : Tokenizer) (brand_model : Option BrandModel)
    (language_model : Option (PyStr → ℚ)) (content : PyStr)
    (_content_type : ContentType) : ConsistencyResult :=
  match brand_model with
  | none =>
    { consistency_score := 0
      suggestions := ["請先設置品牌模型".toList]
      details := { keywords := { found_keywords := [], missing_keywords := [] }
                   sentence_length := { avg_length := none, ideal_length := none }
                   style := { attributes := [], overall_score := 1 }
                   model_score := none } }
  | some bm =>
    let kw := check_keywords (some bm) content
    let sl := check_sentence_length (some bm) wt st content
    let sty := check_style_attributes (some bm) wt st content
    let model_score : ℚ :=
      match language_model with
      | some score_text => score_text content
      | none => 0
    let w := consistencyWeights language_model.isSome
    let total_score := kw.1 * w.keywords + sl.1 * w.sentence_length +
      sty.1 * w.style + model_score * w.model
    let sugg_kw :=
      if kw.1 < 1/2 ∧ ¬ bm.keywords.isEmpty then
        if ¬ kw.2.missing_keywords.isEmpty then
          ["考慮增加關鍵詞: ".toList ++ joinCommaSpace (kw.2.missing_keywords.take 3)]
        else []
      else []
    let sugg_sl :=
      if sl.1 < 1/2 then
        if sl.2.avg_length.getD 0 > sl.2.ideal_length.getD 15 then
          ["縮短句子長度，使用更簡潔的表達".toList]
        else ["擴展句子長度，添加更多細節或描述".toList]
      else []
    let sugg_style :=
      if sty.1 < 1/2 then
        (sty.2.attributes.filter (fun d => decide (d.score < 2/5))).map (fun d =>
          "增強 ".toList ++ apos :: (d.name ++ apos :: (" 風格特徵: ".toList ++ d.suggestion)))
      else []
    let sugg_overall :=
      if total_score < 2/5 then ["內容與品牌風格差異較大，建議重新創作".toList]
      else if total_score < 7/10 then ["內容部分符合品牌風格，需要修改調整".toList]
      else []
    { consistency_score := total_score
      suggestions := sugg_kw ++ sugg_sl ++ sugg_style ++ sugg_overall
      details := { keywords := kw.2
                   sentence_length := sl.2
                   style := sty.2
                   model_score := if language_model.isSome then some model_score else none } }

/-- A content dict as the top-level adapter receives it. -/
def sampleDict : PyDict := [("notes", PyVal.str "hi".toList)]

/-- A Video `ContentItem` whose `duration_seconds` is absent. -/
def sampleIgVideoItem : ContentItem :=
  { id := "vid-1".toList
    brand_id := "brand-1".toList
    platform := Platform.instagram
    content_type := ContentType.video
    video_content := some { title := "春季新品".toList, script := "影片腳本".toList } }

/-- An Image `ContentItem` with a valid (`.jpg`) image URL. -/
def sampleYtImageItem : ContentItem :=
  { id := "img-1".toList
    brand_id := "brand-1".toList
    platform := Platform.youtube
    content_type := ContentType.image
    image_content := some { prompt := "產品照片".toList,
                            image_url := some "https://cdn.example.com/pic.jpg".toList } }

/-- A short Facebook text post, well within every limit. -/
def sampleFbTextItem : ContentItem :=
  { id := "post-1".toList
    brand_id := "brand-1".toList
    platform := Platform.facebook
    content_type := ContentType.text
    text_content := some { text := "Hello world this is a short post".toList } }

/-- Scenario D brand: keywords `["eco", "green"]`. -/
def scenarioDBrand : BrandModel :=
  { id := "brand-1".toList
    name := "EcoBrand".toList
    keywords := ["eco".toList, "green".toList] }

/-- Scenario D text: contains "eco" but not "green". -/
def scenarioDText : PyStr := "we love eco products".toList

/-- Concrete stand-in for NLTK `word_tokenize` (whitespace splitting, which
agrees with NLTK on the plain-word inputs used below). -/
def wsTokenizer : Tokenizer := pySplitWs

/-- Concrete stand-in for NLTK `sent_tokenize` (the whole text as one
sentence, which agrees with NLTK on the single-sentence inputs below). -/
def wholeTokenizer : Tokenizer := fun s => [s]

/-- Boundary characterization of a truncation helper `f` on an over-long
`text`: the result is `strip(text[:k]) ++ sfx` for some cut `k ≤ m` and
some suffix from `suffixes`, and either the cut lands on a whitespace
character of `text`, or it is the hard cut at `m` and the first `m`
characters of `text` contain no space at a positive index. -/
def CutsAtBoundary (f : PyStr → Nat → PyStr) (suffixes : List PyStr)
    (text : PyStr) (m : Nat) : Prop :=
  ∃ k sfx, k ≤ m ∧ sfx ∈ suffixes ∧
    f text m = pyStrip (text.take k) ++ sfx ∧
    ((∃ c, text[k]? = some c ∧ isPySpace c) ∨
      (k = m ∧ ∀ j c, 0 < j → (text.take m)[j]? = some c → c ≠ ' '))

/-- C1: the claim says `adapt_content` dispatches to the registered platform
adapter for facebook/instagram/linkedin/youtube and returns its adaptation
result. In the code the registered branch calls a method named `adapt`,
which no platform adapter class defines, so it raises `AttributeError`
instead; only the generic fallback for unregistered platforms behaves as
described (labels the content with the platform name and appends the
disclaimer note, not fatal). -/
theorem c1_dispatch_raises_attribute_error :
    platformAdapter_adapt_content sampleDict "Facebook".toList
      = .error (.attributeError "object has no attribute adapt".toList) ∧
    platformAdapter_adapt_content sampleDict "instagram".toList
      = .error (.attributeError "object has no attribute adapt".toList) ∧
    platformAdapter_adapt_content sampleDict "linkedin".toList
      = .error (.attributeError "object has no attribute adapt".toList) ∧
    platformAdapter_adapt_content sampleDict "YouTube".toList
      = .error (.attributeError "object has no attribute adapt".toList) ∧
    platformAdapter_adapt_content sampleDict "twitter".toList
      = .ok [("notes", PyVal.str "hi\nThis content has been generically adapted for twitter.".toList),
             ("platform", PyVal.str "twitter".toList)] := by
  refine ⟨rfl, rfl, rfl, rfl, rfl⟩

/-- C2: the claim says every public adapter entry point returns a
structured result and never raises, in particular for a Video item with
absent `durationSeconds` and for an Image item routed to YouTube thumbnail
adaptation with a valid image URL. The code raises on exactly those two
inputs: `InstagramAdapter.adapt_video_content` evaluates
`duration_seconds > 60` on `None` (TypeError), and
`YouTubeAdapter.adapt_to_thumbnail` assigns the nonexistent field
`thumbnail_url` (pydantic ValueError). -/
theorem c2_entry_points_raise :
    ig_adapt_video_content sampleIgVideoItem
      = .error (.typeError "unorderable: NoneType and int".toList) ∧
    yt_adapt_to_thumbnail sampleYtImageItem
      = .error (.valueError "VideoContent object has no field thumbnail_url".toList) := by
  refine ⟨rfl, rfl⟩

/-- C3: the claim says constructing a `ContentItem` succeeds when the
payload matching `contentType` is populated and is rejected when it is
missing. The validator tests whether the name text_content is absent from `values` while
`text_content` itself is the field being validated — and pydantic v1 never
includes the current field in `values` — so construction raises exactly
when the matching payload IS supplied, and succeeds when it is missing. -/
theorem c3_validator_inverted :
    contentItemConstructionRaises ContentType.text true false false = true ∧
    contentItemConstructionRaises ContentType.image false true false = true ∧
    contentItemConstructionRaises ContentType.video false false true = true ∧
    contentItemConstructionRaises ContentType.text false false false = false ∧
    contentItemConstructionRaises ContentType.image false false false = false ∧
    contentItemConstructionRaises ContentType.video false false false = false := by
  refine ⟨rfl, rfl, rfl, rfl, rfl, rfl⟩

/-- C8: with no language model configured, `check_consistency` weights the
keyword sub-score by 0.4, the sentence-length sub-score by 0.2 and the
style sub-score by 0.4, and these sum to exactly 1. -/
theorem c8_weights_sum_to_one :
    (consistencyWeights false).keywords = 2/5 ∧
    (consistencyWeights false).sentence_length = 1/5 ∧
    (consistencyWeights false).style = 2/5 ∧
    (consistencyWeights false).keywords + (consistencyWeights false).sentence_length +
      (consistencyWeights false).style = 1 := by
  refine ⟨rfl, rfl, rfl, by norm_num [consistencyWeights]⟩

/-- C6 counterexample: the claim says the reconciled tag list never
contains duplicate tag values, including when the inline hashtag tokens
contain repeats. On the caption `"#tag #tag"` Instagram returns the tag
list `["tag", "tag"]` — a duplicate (repeated inline tokens are extended
into the merged list as-is; only explicit tags are filtered against it). -/
theorem c6_counterexample :
    (ig_adapt_hashtags "#tag #tag".toList none).2 = ["tag".toList, "tag".toList] ∧
    ¬ (ig_adapt_hashtags "#tag #tag".toList none).2.Nodup := by
  refine ⟨rfl, by decide⟩

/-- The keyword sub-score of scenario D is `1/2` (one of two keywords
found). -/
theorem scenarioD_keyword_score :
    (check_keywords (some scenarioDBrand) scenarioDText).1 = 1/2 := by
  have h : (check_keywords (some scenarioDBrand) scenarioDText).1
      = ((1 : Nat) : ℚ) / ((2 : Nat) : ℚ) := rfl
  rw [h]; norm_num

/-- The sentence-length sub-score of scenario D under the concrete
tokenizers (one sentence of four words, ideal 15). -/
theorem scenarioD_sentence_score :
    (check_sentence_length (some scenarioDBrand) wsTokenizer wholeTokenizer scenarioDText).1
      = 4/15 := by
  have h : (check_sentence_length (some scenarioDBrand) wsTokenizer wholeTokenizer scenarioDText).1
      = max 0 (1 - |((4 : Nat) : ℚ) / ((1 : Nat) : ℚ) - 15| / 15) := rfl
  rw [h]; norm_num

/-- The full suggestion list of scenario D: only the sentence-length and
overall advisories fire; the keyword branch does not (its score is exactly
1/2, not strictly below it). -/
theorem scenarioD_suggestions :
    (check_consistency wsTokenizer wholeTokenizer (some scenarioDBrand) none
        scenarioDText ContentType.text).suggestions
      = ["擴展句子長度，添加更多細節或描述".toList,
         "內容部分符合品牌風格，需要修改調整".toList] := by
  have hk : (check_keywords (some scenarioDBrand) scenarioDText).1
      = ((1 : Nat) : ℚ) / ((2 : Nat) : ℚ) := rfl
  have hsl2 : (check_sentence_length (some scenarioDBrand) wsTokenizer wholeTokenizer scenarioDText).2
      = { avg_length := some (((4 : Nat) : ℚ) / ((1 : Nat) : ℚ)), ideal_length := some 15 } := rfl
  have hst : check_style_attributes (some scenarioDBrand) wsTokenizer wholeTokenizer scenarioDText
      = (1, { attributes := [], overall_score := 1 }) := rfl
  simp only [check_consistency]
  rw [hk, scenarioD_sentence_score, hsl2, hst]
  norm_num [consistencyWeights, scenarioDBrand]

/-- C9 counterexample: the claim says this scenario produces exactly one
keyword suggestion naming "green". The keyword sub-score is exactly 0.5 and
the suggestion rule fires only for scores strictly below 0.5, so no
suggestion mentioning "green" is produced at all. -/
theorem c9_counterexample :
    (check_keywords (some scenarioDBrand) scenarioDText).1 = 1/2 ∧
    ((check_consistency wsTokenizer wholeTokenizer (some scenarioDBrand) none
        scenarioDText ContentType.text).suggestions.filter
      (fun s => pyContainsSub "green".toList s)) = [] := by
  refine ⟨scenarioD_keyword_score, ?_⟩
  rw [scenarioD_suggestions]
  rfl

/-- C9 amended: for `keywords = ["eco","green"]` and a text containing only
"eco", the keyword sub-score is exactly 0.5 and the missing list is
`["green"]`, but no keyword suggestion is emitted, because the suggestion
rule requires the keyword score to be strictly below 0.5 (the only
suggestions are the tokenizer-dependent sentence-length and overall
advisories). -/
theorem c9_amended :
    (check_keywords (some scenarioDBrand) scenarioDText).1 = 1/2 ∧
    (check_consistency wsTokenizer wholeTokenizer (some scenarioDBrand) none
        scenarioDText ContentType.text).details.keywords.missing_keywords
      = ["green".toList] ∧
    (check_consistency wsTokenizer wholeTokenizer (some scenarioDBrand) none
        scenarioDText ContentType.text).suggestions
      = ["擴展句子長度，添加更多細節或描述".toList,
         "內容部分符合品牌風格，需要修改調整".toList] :=
  ⟨scenarioD_keyword_score, rfl, scenarioD_suggestions⟩

/-- C10 counterexample: the claim says a YouTube video title already within
the 100-character limit is returned unchanged; `_adapt_title` upper-cases a
leading ASCII lowercase letter, so `"my video"` comes back `"My video"`. -/
theorem c10_counterexample :
    yt_adapt_title "my video".toList = "My video".toList ∧
    yt_adapt_title "my video".toList ≠ "my video".toList := by
  refine ⟨rfl, by decide⟩

/-- C5 counterexample: the claim says every adapter truncate searches for a
boundary only within the last 30% of the budget and hard-cuts at
`maxLength` when none lies there. For `"ab cdefghijklmnop"` with budget 10
the only space sits at index 2 — outside the last 30% — so the claimed
behaviour is the hard cut `"ab cdefghi..."`, but
`FacebookAdapter._truncate_text` cuts at that space and returns `"ab..."`. -/
theorem c5_counterexample :
    fb_truncate_text "ab cdefghijklmnop".toList 10 = "ab...".toList ∧
    truncateSpec ellipsisMarker "ab cdefghijklmnop".toList 10 = "ab cdefghi...".toList ∧
    fb_truncate_text "ab cdefghijklmnop".toList 10
      ≠ truncateSpec ellipsisMarker "ab cdefghijklmnop".toList 10 := by
  refine ⟨rfl, rfl, by decide⟩

theorem length_pyRstrip_le (s : PyStr) : (pyRstrip s).length ≤ s.length := by
  unfold pyRstrip
  rw [List.length_reverse]
  calc (s.reverse.dropWhile isPySpace).length ≤ s.reverse.length :=
        (List.dropWhile_sublist isPySpace).length_le
    _ = s.length := List.length_reverse s

theorem length_pyStrip_le (s : PyStr) : (pyStrip s).length ≤ s.length := by
  unfold pyStrip pyLstrip
  exact le_trans (length_pyRstrip_le _) ((List.dropWhile_sublist isPySpace).length_le)

theorem rlastIdx_some_lt {p : Char → Bool} : ∀ {s : PyStr} {i : Nat},
    rlastIdx p s = some i → i < s.length := by
  intro s
  induction s with
  | nil => intro i h; simp [rlastIdx] at h
  | cons c t ih =>
    intro i h
    rw [rlastIdx] at h
    cases ht : rlastIdx p t with
    | some j =>
      rw [ht] at h
      simp only [Option.some.injEq] at h
      subst h
      simpa using Nat.succ_lt_succ (ih ht)
    | none =>
      rw [ht] at h
      by_cases hp : p c
      · simp [hp] at h; subst h; simp
      · simp [hp] at h

theorem rlastIdx_some_getElem {p : Char → Bool} : ∀ {s : PyStr} {i : Nat},
    rlastIdx p s = some i → ∃ c, s[i]? = some c ∧ p c = true := by
  intro s
  induction s with
  | nil => intro i h; simp [rlastIdx] at h
  | cons c t ih =>
    intro i h
    rw [rlastIdx] at h
    cases ht : rlastIdx p t with
    | some j =>
      rw [ht] at h
      simp only [Option.some.injEq] at h
      subst h
      obtain ⟨d, hd, hpd⟩ := ih ht
      exact ⟨d, by simpa using hd, hpd⟩
    | none =>
      rw [ht] at h
      by_cases hp : p c
      · simp [hp] at h; subst h; exact ⟨c, by simp, hp⟩
      · simp [hp] at h

theorem rlastIdx_none {p : Char → Bool} : ∀ {s : PyStr},
    rlastIdx p s = none → ∀ (j : Nat) (c : Char), s[j]? = some c → p c = false := by
  intro s
  induction s with
  | nil => intro _ j c hj; simp at hj
  | cons a t ih =>
    intro h j c hj
    rw [rlastIdx] at h
    cases ht : rlastIdx p t with
    | some i => rw [ht] at h; simp at h
    | none =>
      rw [ht] at h
      by_cases hp : p a
      · simp [hp] at h
      · cases j with
        | zero => simp at hj; subst hj; simpa using hp
        | succ j => exact ih ht j c (by simpa using hj)

theorem rlastIdx_some_max {p : Char → Bool} : ∀ {s : PyStr} {i : Nat},
    rlastIdx p s = some i → ∀ (j : Nat) (c : Char), i < j → s[j]? = some c → p c = false := by
  intro s
  induction s with
  | nil => intro i h; simp [rlastIdx] at h
  | cons a t ih =>
    intro i h j c hij hj
    rw [rlastIdx] at h
    cases ht : rlastIdx p t with
    | some k =>
      rw [ht] at h
      simp only [Option.some.injEq] at h
      subst h
      cases j with
      | zero => omega
      | succ j => exact ih ht j c (by omega) (by simpa using hj)
    | none =>
      rw [ht] at h
      by_cases hp : p a
      · simp [hp] at h
        subst h
        cases j with
        | zero => omega
        | succ j => exact rlastIdx_none ht j c (by simpa using hj)
      · simp [hp] at h

theorem rlastSub_some_le {sub : PyStr} : ∀ {s : PyStr} {i : Nat},
    rlastSub sub s = some i → i ≤ s.length := by
  intro s
  induction s with
  | nil =>
    intro i h
    rw [rlastSub] at h
    by_cases hs : sub = []
    · simp [hs] at h; omega
    · simp [hs] at h
  | cons c t ih =>
    intro i h
    rw [rlastSub] at h
    cases ht : rlastSub sub t with
    | some j =>
      rw [ht] at h
      simp only [Option.some.injEq] at h
      subst h
      simpa using Nat.succ_le_succ (ih ht)
    | none =>
      rw [ht] at h
      by_cases hp : sub.isPrefixOf (c :: t)
      · simp [hp] at h; subst h; simp
      · simp [hp] at h

theorem rlastSub_some_occurs {sub : PyStr} : ∀ {s : PyStr} {i : Nat},
    rlastSub sub s = some i → sub <+: s.drop i := by
  intro s
  induction s with
  | nil =>
    intro i h
    rw [rlastSub] at h
    by_cases hs : sub = []
    · simp [hs] at h; subst h; simp [hs]
    · simp [hs] at h
  | cons c t ih =>
    intro i h
    rw [rlastSub] at h
    cases ht : rlastSub sub t with
    | some j =>
      rw [ht] at h
      simp only [Option.some.injEq] at h
      subst h
      simpa using ih ht
    | none =>
      rw [ht] at h
      by_cases hp : sub.isPrefixOf (c :: t)
      · simp [hp] at h
        subst h
        simpa using List.isPrefixOf_iff_prefix.mp hp
      · simp [hp] at h

theorem rlastSub_some_add_le {sub s : PyStr} {i : Nat}
    (h : rlastSub sub s = some i) : i + sub.length ≤ s.length := by
  have h1 := rlastSub_some_le h
  have h2 := List.IsPrefix.length_le (rlastSub_some_occurs h)
  rw [List.length_drop] at h2
  omega

theorem pyRfindSub_nonneg_spec {sub s : PyStr} (h : 0 ≤ pyRfindSub sub s) :
    ∃ i : Nat, pyRfindSub sub s = (i : Int) ∧ rlastSub sub s = some i := by
  unfold pyRfindSub at *
  cases heq : rlastSub sub s with
  | none => rw [heq] at h; norm_num at h
  | some i => exact ⟨i, rfl, rfl⟩

theorem pyRfindChar_nonneg_spec {c : Char} {s : PyStr} (h : 0 ≤ pyRfindChar c s) :
    ∃ i : Nat, pyRfindChar c s = (i : Int) ∧ rlastIdx (fun d => d = c) s = some i := by
  unfold pyRfindChar at *
  cases heq : rlastIdx (fun d => d = c) s with
  | none => rw [heq] at h; norm_num at h
  | some i => exact ⟨i, rfl, rfl⟩

theorem pyMax3_cases (a b c : Int) :
    pyMax a (pyMax b c) = a ∨ pyMax a (pyMax b c) = b ∨ pyMax a (pyMax b c) = c := by
  unfold pyMax
  rcases max_choice a (max b c) with h | h
  · exact Or.inl h
  · rcases max_choice b c with h2 | h2
    · exact Or.inr (Or.inl (h.trans h2))
    · exact Or.inr (Or.inr (h.trans h2))

theorem rfind2_cut_le {sub tr : PyStr} {m : Nat} (htr : tr.length = m)
    (hsub2 : sub.length = 2) {ls : Int} (hls0 : 0 ≤ ls)
    (heq : ls = pyRfindSub sub tr) : ls.toNat + 2 ≤ m := by
  subst heq
  obtain ⟨i, hi, hsome⟩ := pyRfindSub_nonneg_spec hls0
  have hadd := rlastSub_some_add_le hsome
  rw [hsub2] at hadd
  omega

/-- C4: each adapter truncation returns the text unchanged when it fits,
and otherwise a result of length at most `maxLength` plus the length of
that adapter marker. -/
theorem c4_truncate_length_bounds (text : PyStr) (max_length : Nat)
    (h : 1 ≤ max_length) :
    (text.length ≤ max_length →
      fb_truncate_text text max_length = text ∧
      ig_truncate_text text max_length = text ∧
      yt_truncate_text text max_length = text ∧
      li_truncate_text text max_length = text) ∧
    ((fb_truncate_text text max_length).length ≤ max_length + ellipsisMarker.length ∧
     (ig_truncate_text text max_length).length ≤ max_length + ellipsisMarker.length ∧
     (yt_truncate_text text max_length).length ≤ max_length + ellipsisMarker.length ∧
     (li_truncate_text text max_length).length ≤ max_length + liMarker.length) := by
  constructor
  · intro hle
    refine ⟨?_, ?_, ?_, ?_⟩
    · unfold fb_truncate_text; rw [if_pos hle]
    · unfold ig_truncate_text; rw [if_pos hle]
    · unfold yt_truncate_text; rw [if_pos hle]
    · unfold li_truncate_text; rw [if_pos hle]
  · by_cases hle : text.length ≤ max_length
    · have e1 : fb_truncate_text text max_length = text := by
        unfold fb_truncate_text; rw [if_pos hle]
      have e2 : ig_truncate_text text max_length = text := by
        unfold ig_truncate_text; rw [if_pos hle]
      have e3 : yt_truncate_text text max_length = text := by
        unfold yt_truncate_text; rw [if_pos hle]
      have e4 : li_truncate_text text max_length = text := by
        unfold li_truncate_text; rw [if_pos hle]
      rw [e1, e2, e3, e4]
      exact ⟨le_trans hle (Nat.le_add_right _ _), le_trans hle (Nat.le_add_right _ _),
        le_trans hle (Nat.le_add_right _ _), le_trans hle (Nat.le_add_right _ _)⟩
    · push_neg at hle
      have htr : (text.take max_length).length = max_length := by
        rw [List.length_take]; omega
      have hcore : ∀ k : Nat, (pyStrip ((text.take max_length).take k)).length ≤ max_length := by
        intro k
        refine le_trans (length_pyStrip_le _) ?_
        exact le_trans (List.take_sublist _ _).length_le (le_of_eq htr)
      have hcore0 : (pyStrip (text.take max_length)).length ≤ max_length :=
        le_trans (length_pyStrip_le _) (le_of_eq htr)
      refine ⟨?_, ?_, ?_, ?_⟩
      · unfold fb_truncate_text
        rw [if_neg (by omega)]
        rw [List.length_append]
        split
        · exact Nat.add_le_add_right (hcore _) _
        · exact Nat.add_le_add_right hcore0 _
      · unfold ig_truncate_text
        rw [if_neg (by omega)]
        rw [List.length_append]
        split
        · exact Nat.add_le_add_right (hcore _) _
        · exact Nat.add_le_add_right hcore0 _
      · unfold yt_truncate_text
        rw [if_neg (by omega)]
        dsimp only
        split
        · exact le_trans (hcore _) (Nat.le_add_right _ _)
        · rw [List.length_append]
          split
          · exact Nat.add_le_add_right (hcore _) _
          · exact Nat.add_le_add_right hcore0 _
      · unfold li_truncate_text
        rw [if_neg (by omega)]
        dsimp only
        split
        · rw [List.length_append]
          exact Nat.add_le_add_right (hcore _) _
        · split
          · rename_i hcond
            rw [List.length_append]
            have hls0 : (0:Int) ≤ pyMax (pyRfindSub ". ".toList (text.take max_length))
                (pyMax (pyRfindSub "! ".toList (text.take max_length))
                  (pyRfindSub "? ".toList (text.take max_length))) := by omega
            have hcut : (pyMax (pyRfindSub ". ".toList (text.take max_length))
                (pyMax (pyRfindSub "! ".toList (text.take max_length))
                  (pyRfindSub "? ".toList (text.take max_length)))).toNat + 2 ≤ max_length := by
              rcases pyMax3_cases (pyRfindSub ". ".toList (text.take max_length))
                  (pyRfindSub "! ".toList (text.take max_length))
                  (pyRfindSub "? ".toList (text.take max_length)) with hc | hc | hc
              · exact rfind2_cut_le htr (show (". ".toList : PyStr).length = 2 from rfl) hls0 hc
              · exact rfind2_cut_le htr (show ("! ".toList : PyStr).length = 2 from rfl) hls0 hc
              · exact rfind2_cut_le htr (show ("? ".toList : PyStr).length = 2 from rfl) hls0 hc
            have hstrip := length_pyStrip_le (((text.take max_length)).take
              ((pyMax (pyRfindSub ". ".toList (text.take max_length))
                (pyMax (pyRfindSub "! ".toList (text.take max_length))
                  (pyRfindSub "? ".toList (text.take max_length)))).toNat + 1))
            have htk : (((text.take max_length)).take
              ((pyMax (pyRfindSub ". ".toList (text.take max_length))
                (pyMax (pyRfindSub "! ".toList (text.take max_length))
                  (pyRfindSub "? ".toList (text.take max_length)))).toNat + 1)).length
                ≤ max_length - 1 := by
              rw [List.length_take]
              omega
            simp only [List.length_cons]
            omega
          · rw [List.length_append]
            split
            · exact Nat.add_le_add_right (hcore _) _
            · exact Nat.add_le_add_right hcore0 _

theorem take_take_of_le {text : PyStr} {k m : Nat} (hk : k ≤ m) :
    List.take k (List.take m text) = List.take k text := by
  rw [List.take_take, min_eq_left hk]

theorem getElem?_take_of_lt {text : PyStr} {k m : Nat} (hk : k < m) :
    (List.take m text)[k]? = text[k]? := by
  rw [List.getElem?_take]; simp [hk]

theorem no_positive_space {tr : PyStr} (h : ¬ pyRfindChar ' ' tr > 0) :
    ∀ (j : Nat) (c : Char), 0 < j → tr[j]? = some c → c ≠ ' ' := by
  intro j c hj hget
  unfold pyRfindChar at h
  cases heq : rlastIdx (fun d => d = ' ') tr with
  | none =>
    have := rlastIdx_none heq j c hget
    simpa using this
  | some i =>
    rw [heq] at h
    simp only [gt_iff_lt, not_lt] at h
    have hi0 : i = 0 := by omega
    subst hi0
    have := rlastIdx_some_max heq j c hj hget
    simpa using this

theorem rlastSub_getElem {sub tr : PyStr} {i j : Nat} (hsome : rlastSub sub tr = some i)
    {c : Char} (hj : sub[j]? = some c) : tr[i + j]? = some c := by
  obtain ⟨t, ht⟩ := rlastSub_some_occurs hsome
  have hjlt : j < sub.length := by
    by_contra hh
    push_neg at hh
    rw [List.getElem?_eq_none hh] at hj
    simp at hj
  have h1 : (tr.drop i)[j]? = some c := by
    rw [← ht, List.getElem?_append, if_pos hjlt]
    exact hj
  rw [List.getElem?_drop] at h1
  exact h1

theorem space_cut_spec (text : PyStr) (m : Nat) (hle : m < text.length) :
    ∃ k, k ≤ m ∧
      pyStrip (if pyRfindChar ' ' (List.take m text) > 0
        then List.take (pyRfindChar ' ' (List.take m text)).toNat (List.take m text)
        else List.take m text) = pyStrip (List.take k text) ∧
      ((∃ c, text[k]? = some c ∧ isPySpace c) ∨
        (k = m ∧ ∀ (j : Nat) (c : Char), 0 < j → (List.take m text)[j]? = some c → c ≠ ' ')) := by
  by_cases hsp : pyRfindChar ' ' (List.take m text) > 0
  · obtain ⟨i, hi, hsome⟩ := pyRfindChar_nonneg_spec (le_of_lt hsp)
    have hilt : i < (List.take m text).length := rlastIdx_some_lt hsome
    have him : i < m := by rw [List.length_take] at hilt; omega
    obtain ⟨c, hc, hpc⟩ := rlastIdx_some_getElem hsome
    have hc2 : c = ' ' := by simpa using hpc
    subst hc2
    refine ⟨i, by omega, ?_, ?_⟩
    · rw [if_pos hsp, hi, Int.toNat_natCast, take_take_of_le (by omega)]
    · left
      refine ⟨' ', ?_, by rfl⟩
      rw [getElem?_take_of_lt him] at hc
      exact hc
  · refine ⟨m, le_refl m, ?_, ?_⟩
    · rw [if_neg hsp]
    · right
      exact ⟨rfl, no_positive_space hsp⟩

theorem sentence_cut_spec (text : PyStr) (m : Nat) (h1 : 1 ≤ m) (hle : m < text.length)
    (h10 : 10 * (pyMax (pyRfindSub ". ".toList (List.take m text))
      (pyMax (pyRfindSub "! ".toList (List.take m text))
        (pyRfindSub "? ".toList (List.take m text)))) > 7 * (m : Int)) :
    ∃ k, k ≤ m ∧
      List.take ((pyMax (pyRfindSub ". ".toList (List.take m text))
        (pyMax (pyRfindSub "! ".toList (List.take m text))
          (pyRfindSub "? ".toList (List.take m text)))).toNat + 1) (List.take m text)
        = List.take k text ∧
      (∃ c, text[k]? = some c ∧ isPySpace c) := by
  have htr : (List.take m text).length = m := by rw [List.length_take]; omega
  have hls0 : (0:Int) ≤ pyMax (pyRfindSub ". ".toList (List.take m text))
      (pyMax (pyRfindSub "! ".toList (List.take m text))
        (pyRfindSub "? ".toList (List.take m text))) := by omega
  rcases pyMax3_cases (pyRfindSub ". ".toList (List.take m text))
      (pyRfindSub "! ".toList (List.take m text))
      (pyRfindSub "? ".toList (List.take m text)) with hc | hc | hc
  all_goals rw [hc] at hls0 ⊢
  · obtain ⟨i, hi, hsome⟩ := pyRfindSub_nonneg_spec hls0
    have hadd := rlastSub_some_add_le hsome
    rw [(show (". ".toList : PyStr).length = 2 from rfl)] at hadd
    rw [htr] at hadd
    have hsp : (List.take m text)[i + 1]? = some ' ' :=
      rlastSub_getElem hsome (show (". ".toList : PyStr)[1]? = some ' ' from rfl)
    refine ⟨i + 1, by omega, ?_, ?_⟩
    · rw [hi, Int.toNat_natCast, take_take_of_le (by omega)]
    · refine ⟨' ', ?_, by rfl⟩
      rw [getElem?_take_of_lt (by omega)] at hsp
      exact hsp
  · obtain ⟨i, hi, hsome⟩ := pyRfindSub_nonneg_spec hls0
    have hadd := rlastSub_some_add_le hsome
    rw [(show ("! ".toList : PyStr).length = 2 from rfl)] at hadd
    rw [htr] at hadd
    have hsp : (List.take m text)[i + 1]? = some ' ' :=
      rlastSub_getElem hsome (show ("! ".toList : PyStr)[1]? = some ' ' from rfl)
    refine ⟨i + 1, by omega, ?_, ?_⟩
    · rw [hi, Int.toNat_natCast, take_take_of_le (by omega)]
    · refine ⟨' ', ?_, by rfl⟩
      rw [getElem?_take_of_lt (by omega)] at hsp
      exact hsp
  · obtain ⟨i, hi, hsome⟩ := pyRfindSub_nonneg_spec hls0
    have hadd := rlastSub_some_add_le hsome
    rw [(show ("? ".toList : PyStr).length = 2 from rfl)] at hadd
    rw [htr] at hadd
    have hsp : (List.take m text)[i + 1]? = some ' ' :=
      rlastSub_getElem hsome (show ("? ".toList : PyStr)[1]? = some ' ' from rfl)
    refine ⟨i + 1, by omega, ?_, ?_⟩
    · rw [hi, Int.toNat_natCast, take_take_of_le (by omega)]
    · refine ⟨' ', ?_, by rfl⟩
      rw [getElem?_take_of_lt (by omega)] at hsp
      exact hsp

theorem para_cut_spec (text : PyStr) (m : Nat) (h1 : 1 ≤ m) (hle : m < text.length)
    (h10 : 10 * pyRfindSub "\n\n".toList (List.take m text) > 7 * (m : Int)) :
    ∃ k, k ≤ m ∧
      List.take (pyRfindSub "\n\n".toList (List.take m text)).toNat (List.take m text)
        = List.take k text ∧
      (∃ c, text[k]? = some c ∧ isPySpace c) := by
  have htr : (List.take m text).length = m := by rw [List.length_take]; omega
  have hls0 : (0:Int) ≤ pyRfindSub "\n\n".toList (List.take m text) := by omega
  obtain ⟨i, hi, hsome⟩ := pyRfindSub_nonneg_spec hls0
  have hadd := rlastSub_some_add_le hsome
  rw [(show ("\n\n".toList : PyStr).length = 2 from rfl)] at hadd
  rw [htr] at hadd
  have hsp : (List.take m text)[i + 0]? = some '\n' :=
    rlastSub_getElem hsome (show ("\n\n".toList : PyStr)[0]? = some '\n' from rfl)
  refine ⟨i, by omega, ?_, ?_⟩
  · rw [hi, Int.toNat_natCast, take_take_of_le (by omega)]
  · refine ⟨'\n', ?_, by rfl⟩
    rw [(show i + 0 = i from rfl), getElem?_take_of_lt (by omega)] at hsp
    exact hsp

/-- C5 amended: on over-long input every adapter truncation cuts at a
boundary — the result is `strip(text[:k]) ++ suffix` with the cut `k` on a
whitespace character of the text, or is the hard cut at `maxLength` and
then the first `maxLength` characters contain no space at a positive
index; the boundary searches are not confined to the last 30% of the
budget (only the LinkedIn paragraph/sentence and YouTube sentence searches
are), Facebook and Instagram search only for whitespace, and the YouTube
sentence-boundary cut omits the continuation marker. -/
theorem c5_amended (text : PyStr) (m : Nat) (h1 : 1 ≤ m) (h2 : m < text.length) :
    CutsAtBoundary fb_truncate_text [ellipsisMarker] text m ∧
    CutsAtBoundary ig_truncate_text [ellipsisMarker] text m ∧
    CutsAtBoundary yt_truncate_text [ellipsisMarker, []] text m ∧
    CutsAtBoundary li_truncate_text [liMarker, ' ' :: liMarker] text m := by
  obtain ⟨ks, hks, hcore_s, hbd_s⟩ := space_cut_spec text m h2
  unfold CutsAtBoundary
  refine ⟨?_, ?_, ?_, ?_⟩
  · refine ⟨ks, ellipsisMarker, hks, by simp, ?_, hbd_s⟩
    unfold fb_truncate_text
    rw [if_neg (by omega)]
    dsimp only
    rw [hcore_s]
  · refine ⟨ks, ellipsisMarker, hks, by simp, ?_, hbd_s⟩
    unfold ig_truncate_text
    rw [if_neg (by omega)]
    dsimp only
    rw [hcore_s]
  · by_cases h10 : 10 * (pyMax (pyRfindSub ". ".toList (List.take m text))
        (pyMax (pyRfindSub "! ".toList (List.take m text))
          (pyRfindSub "? ".toList (List.take m text)))) > 7 * (m : Int)
    · obtain ⟨k, hk, hcore, hbd⟩ := sentence_cut_spec text m h1 h2 h10
      refine ⟨k, [], hk, by simp, ?_, Or.inl hbd⟩
      unfold yt_truncate_text
      rw [if_neg (by omega)]
      dsimp only
      rw [if_pos h10, hcore]
      simp
    · refine ⟨ks, ellipsisMarker, hks, by simp, ?_, hbd_s⟩
      unfold yt_truncate_text
      rw [if_neg (by omega)]
      dsimp only
      rw [if_neg h10, hcore_s]
  · by_cases hp : pyContainsSub "\n\n".toList (pySliceTo text ((m : Int) - 50)) = true ∧
        10 * pyRfindSub "\n\n".toList (List.take m text) > 7 * (m : Int)
    · obtain ⟨k, hk, hcore, hbd⟩ := para_cut_spec text m h1 h2 hp.2
      refine ⟨k, liMarker, hk, by simp, ?_, Or.inl hbd⟩
      unfold li_truncate_text
      rw [if_neg (by omega)]
      dsimp only
      rw [if_pos hp, hcore]
    · by_cases h10 : 10 * (pyMax (pyRfindSub ". ".toList (List.take m text))
          (pyMax (pyRfindSub "! ".toList (List.take m text))
            (pyRfindSub "? ".toList (List.take m text)))) > 7 * (m : Int)
      · obtain ⟨k, hk, hcore, hbd⟩ := sentence_cut_spec text m h1 h2 h10
        refine ⟨k, ' ' :: liMarker, hk, by simp, ?_, Or.inl hbd⟩
        unfold li_truncate_text
        rw [if_neg (by omega)]
        dsimp only
        rw [if_neg hp, if_pos h10, hcore]
      · refine ⟨ks, liMarker, hks, by simp, ?_, hbd_s⟩
        unfold li_truncate_text
        rw [if_neg (by omega)]
        dsimp only
        rw [if_neg hp, if_neg h10, hcore_s]

theorem check_keywords_bounds (bm : BrandModel) (content : PyStr) :
    0 ≤ (check_keywords (some bm) content).1 ∧ (check_keywords (some bm) content).1 ≤ 1 := by
  unfold check_keywords
  dsimp only
  split
  · norm_num
  · rename_i hne
    constructor
    · positivity
    · apply div_le_one_of_le₀
      · exact_mod_cast List.length_filter_le _ _
      · positivity

theorem idealSentenceLength_pos (bm : BrandModel)
    (hattr : ∀ a ∈ bm.style_attributes, 0 ≤ a.value ∧ a.value ≤ 1) :
    0 < idealSentenceLength (some bm) := by
  unfold idealSentenceLength
  dsimp only
  have main : ∀ (l : List BrandStyleAttribute) (init : ℚ), 0 < init →
      (∀ a ∈ l, 0 ≤ a.value ∧ a.value ≤ 1) →
      0 < l.foldl (fun ideal attr =>
        if pyLower attr.name ∈ ["簡潔".toList, "簡短".toList, "concise".toList, "brief".toList] then
          10 * (1 - attr.value) + 6
        else if pyLower attr.name ∈ ["詳細".toList, "詳盡".toList, "detailed".toList, "elaborate".toList] then
          15 + 10 * attr.value
        else ideal) init := by
    intro l
    induction l with
    | nil => intro init h0 _; simpa using h0
    | cons a t ih =>
      intro init h0 hl
      rw [List.foldl_cons]
      have ha := hl a (by simp)
      apply ih
      · split
        · linarith [ha.1, ha.2]
        · split
          · linarith [ha.1]
          · exact h0
      · intro b hb
        exact hl b (by simp [hb])
  exact main bm.style_attributes 15 (by norm_num) hattr

theorem check_sentence_length_bounds (bm : BrandModel) (wt st : Tokenizer) (content : PyStr)
    (hattr : ∀ a ∈ bm.style_attributes, 0 ≤ a.value ∧ a.value ≤ 1) :
    0 ≤ (check_sentence_length (some bm) wt st content).1 ∧
      (check_sentence_length (some bm) wt st content).1 ≤ 1 := by
  unfold check_sentence_length
  dsimp only
  split
  · norm_num
  · have hideal := idealSentenceLength_pos bm hattr
    constructor
    · exact le_max_left 0 _
    · apply max_le
      · norm_num
      · have : 0 ≤ |((st content).map (fun s => (wt s).length)).sum /
            (((st content).map (fun s => (wt s).length)).length : ℚ) - idealSentenceLength (some bm)| /
            idealSentenceLength (some bm) := by positivity
        linarith

theorem max0_one_sub_abs_le_one (x t : ℚ) : max 0 (1 - |x - t|) ≤ 1 :=
  max_le (by norm_num) (by linarith [abs_nonneg (x - t)])

theorem evaluate_attribute_bounds (wt st : Tokenizer) (content attr_name : PyStr)
    (target_value : ℚ) :
    0 ≤ (evaluate_attribute wt st content attr_name target_value).1 ∧
      (evaluate_attribute wt st content attr_name target_value).1 ≤ 1 := by
  unfold evaluate_attribute
  dsimp only
  exact ⟨le_max_left 0 _, max0_one_sub_abs_le_one _ _⟩

theorem check_style_attributes_bounds (bm : BrandModel) (wt st : Tokenizer) (content : PyStr) :
    0 ≤ (check_style_attributes (some bm) wt st content).1 ∧
      (check_style_attributes (some bm) wt st content).1 ≤ 1 := by
  unfold check_style_attributes
  dsimp only
  split
  · norm_num
  · rename_i hne
    have hlenpos : 0 < bm.style_attributes.length := by
      cases hsa : bm.style_attributes with
      | nil => rw [hsa] at hne; simp at hne
      | cons a t => simp [hsa]
    constructor
    · apply div_nonneg
      · apply List.sum_nonneg
        intro x hx
        simp only [List.map_map, List.mem_map, Function.comp] at hx
        obtain ⟨a, _, rfl⟩ := hx
        exact (evaluate_attribute_bounds wt st content a.name a.value).1
      · positivity
    · rw [div_le_one (by exact_mod_cast hlenpos)]
      calc ((bm.style_attributes.map fun attr =>
              { name := attr.name, target_value := attr.value,
                score := (evaluate_attribute wt st content attr.name attr.value).1,
                suggestion := (evaluate_attribute wt st content attr.name attr.value).2 :
                  StyleAttributeDetail }).map StyleAttributeDetail.score).sum
          ≤ ((bm.style_attributes.map fun attr =>
              { name := attr.name, target_value := attr.value,
                score := (evaluate_attribute wt st content attr.name attr.value).1,
                suggestion := (evaluate_attribute wt st content attr.name attr.value).2 :
                  StyleAttributeDetail }).map StyleAttributeDetail.score).length • (1:ℚ) := by
            apply List.sum_le_card_nsmul
            intro x hx
            simp only [List.map_map, List.mem_map, Function.comp] at hx
            obtain ⟨a, _, rfl⟩ := hx
            exact (evaluate_attribute_bounds wt st content a.name a.value).2
        _ = (bm.style_attributes.length : ℚ) := by
            simp [List.length_map, nsmul_eq_mul]

/-- C7: for every tokenizer pair, brand model (with its pydantic-validated
attribute values in [0,1]), text and optional external model score in
[0,1], the overall consistency score lies in [0,1]. -/
theorem c7_consistency_score_in_unit_interval (wt st : Tokenizer) (bm : BrandModel)
    (language_model : Option (PyStr → ℚ)) (content : PyStr) (ct : ContentType)
    (hattr : ∀ a ∈ bm.style_attributes, 0 ≤ a.value ∧ a.value ≤ 1)
    (hmodel : ∀ f, language_model = some f → 0 ≤ f content ∧ f content ≤ 1) :
    0 ≤ (check_consistency wt st (some bm) language_model content ct).consistency_score ∧
      (check_consistency wt st (some bm) language_model content ct).consistency_score ≤ 1 := by
  have hk := check_keywords_bounds bm content
  have hs := check_sentence_length_bounds bm wt st content hattr
  have hy := check_style_attributes_bounds bm wt st content
  unfold check_consistency
  dsimp only
  cases language_model with
  | none =>
    have hw : consistencyWeights (Option.isSome (none : Option (PyStr → ℚ)))
        = { keywords := 2/5, sentence_length := 1/5, style := 2/5, model := 0 } := rfl
    rw [hw]
    dsimp only
    constructor
    · have t1 := mul_nonneg hk.1 (by norm_num : (0:ℚ) ≤ 2/5)
      have t2 := mul_nonneg hs.1 (by norm_num : (0:ℚ) ≤ 1/5)
      have t3 := mul_nonneg hy.1 (by norm_num : (0:ℚ) ≤ 2/5)
      linarith
    · have t1 := mul_le_mul_of_nonneg_right hk.2 (by norm_num : (0:ℚ) ≤ 2/5)
      have t2 := mul_le_mul_of_nonneg_right hs.2 (by norm_num : (0:ℚ) ≤ 1/5)
      have t3 := mul_le_mul_of_nonneg_right hy.2 (by norm_num : (0:ℚ) ≤ 2/5)
      linarith
  | some f =>
    have hf := hmodel f rfl
    have hw : consistencyWeights (Option.isSome (some f))
        = { keywords := 1/5, sentence_length := 1/10, style := 3/10, model := 2/5 } := rfl
    rw [hw]
    dsimp only
    constructor
    · have t1 := mul_nonneg hk.1 (by norm_num : (0:ℚ) ≤ 1/5)
      have t2 := mul_nonneg hs.1 (by norm_num : (0:ℚ) ≤ 1/10)
      have t3 := mul_nonneg hy.1 (by norm_num : (0:ℚ) ≤ 3/10)
      have t4 := mul_nonneg hf.1 (by norm_num : (0:ℚ) ≤ 2/5)
      linarith
    · have t1 := mul_le_mul_of_nonneg_right hk.2 (by norm_num : (0:ℚ) ≤ 1/5)
      have t2 := mul_le_mul_of_nonneg_right hs.2 (by norm_num : (0:ℚ) ≤ 1/10)
      have t3 := mul_le_mul_of_nonneg_right hy.2 (by norm_num : (0:ℚ) ≤ 3/10)
      have t4 := mul_le_mul_of_nonneg_right hf.2 (by norm_num : (0:ℚ) ≤ 2/5)
      linarith

theorem capped_length_le (l : List PyStr) (cap : Nat) :
    (if l.length > cap then l.take cap else l).length ≤ cap := by
  split
  · rw [List.length_take]; omega
  · omega

theorem capped_nodup (l : List PyStr) (cap : Nat) (h : l.Nodup) :
    (if l.length > cap then l.take cap else l).Nodup := by
  split
  · exact h.sublist (List.take_sublist _ _)
  · exact h

/-- C6 amended: each hashtag reconciliation always returns at most the
platform cap (30 for Instagram, 5 for Facebook); the result is
duplicate-free whenever the inline hashtag tokens and the explicit tag
list are themselves duplicate-free (repeated inline tokens, or repeats
inside the explicit list, are preserved — only explicit tags already
present among the inline tags are dropped). -/
theorem c6_amended (text : PyStr) (existing : Option (List PyStr))
    (hx : (extractHashtags text).Nodup)
    (he : ∀ ex, existing = some ex → ex.Nodup) :
    ((ig_adapt_hashtags text existing).2.length ≤ IG_MAX_HASHTAGS ∧
      (fb_adapt_hashtags text existing).2.length ≤ FB_MAX_HASHTAGS) ∧
    ((ig_adapt_hashtags text existing).2.Nodup ∧
      (fb_adapt_hashtags text existing).2.Nodup) := by
  cases existing with
  | none =>
    have hm : (extractHashtags text ++ ([] : List PyStr)).Nodup := by simpa using hx
    refine ⟨⟨?_, ?_⟩, ?_, ?_⟩
    · unfold ig_adapt_hashtags
      dsimp only
      split
      · exact capped_length_le _ _
      · exact capped_length_le _ _
    · unfold fb_adapt_hashtags
      dsimp only
      split
      · exact capped_length_le _ _
      · exact capped_length_le _ _
    · unfold ig_adapt_hashtags
      dsimp only
      split
      · exact capped_nodup _ _ hm
      · exact capped_nodup _ _ hm
    · unfold fb_adapt_hashtags
      dsimp only
      split
      · exact capped_nodup _ _ hm
      · exact capped_nodup _ _ hm
  | some ex =>
    have hex := he ex rfl
    have hm : (extractHashtags text ++
        ex.filter (fun tag => decide (tag ∉ extractHashtags text))).Nodup := by
      rw [List.nodup_append]
      refine ⟨hx, hex.filter _, ?_⟩
      intro a ha hb
      have hnm := List.of_mem_filter hb
      simp only [decide_eq_true_eq] at hnm
      exact hnm ha
    refine ⟨⟨?_, ?_⟩, ?_, ?_⟩
    · unfold ig_adapt_hashtags
      dsimp only
      split
      · exact capped_length_le _ _
      · exact capped_length_le _ _
    · unfold fb_adapt_hashtags
      dsimp only
      split
      · exact capped_length_le _ _
      · exact capped_length_le _ _
    · unfold ig_adapt_hashtags
      dsimp only
      split
      · exact capped_nodup _ _ hm
      · exact capped_nodup _ _ hm
    · unfold fb_adapt_hashtags
      dsimp only
      split
      · exact capped_nodup _ _ hm
      · exact capped_nodup _ _ hm

/-- Witness for C6 amended at a concrete caption and explicit tag list. -/
theorem c6_amended_witness :
    ((ig_adapt_hashtags "#sale #eco".toList (some ["promo".toList])).2.length ≤ IG_MAX_HASHTAGS ∧
      (fb_adapt_hashtags "#sale #eco".toList (some ["promo".toList])).2.length ≤ FB_MAX_HASHTAGS) ∧
    ((ig_adapt_hashtags "#sale #eco".toList (some ["promo".toList])).2.Nodup ∧
      (fb_adapt_hashtags "#sale #eco".toList (some ["promo".toList])).2.Nodup) :=
  c6_amended "#sale #eco".toList (some ["promo".toList]) (by decide)
    (fun ex h => by cases h; decide)

/-- C10 amended: adaptation is the identity on in-limit text — a Facebook
text post within the 63,206-character limit whose inline hashtag count is
within the cap of 5 comes back byte-identical with the within-limits flag
true — but YouTube title adaptation additionally upper-cases a leading
ASCII lowercase letter and replaces an empty title by a placeholder, so an
in-limit title is returned unchanged only when it is nonempty and does not
start with a lowercase ASCII letter. -/
theorem c10_amended (item : ContentItem) (tc : TextContent) (title : PyStr)
    (hitem : item.text_content = some tc)
    (hlen : tc.text.length ≤ FB_MAX_POST_LENGTH)
    (htags : (extractHashtags tc.text).length ≤ FB_MAX_HASHTAGS)
    (hne : title ≠ [])
    (hlen2 : title.length ≤ YT_MAX_TITLE_LENGTH)
    (hcase : ∀ c rest, title = c :: rest → ¬('a' ≤ c ∧ c ≤ 'z')) :
    ((fb_adapt_text_content item).content.text_content.map TextContent.text = some tc.text ∧
      (fb_adapt_text_content item).metadata.map FbTextMetadata.is_within_limits = some true) ∧
    yt_adapt_title title = title := by
  constructor
  · have h1 : fb_adapt_text_length tc.text = tc.text := by
      unfold fb_adapt_text_length
      rw [if_pos hlen]
    have h2 : (fb_adapt_hashtags tc.text tc.hashtags).1 = tc.text := by
      unfold fb_adapt_hashtags
      dsimp only
      rw [if_neg (by omega)]
    unfold fb_adapt_text_content
    rw [hitem]
    dsimp only
    rw [h1, h2]
    constructor
    · simp [fb_adapt_mentions]
    · simp [fb_adapt_mentions, hlen]
  · unfold yt_adapt_title
    rw [if_neg (by simpa [List.isEmpty_iff] using hne)]
    dsimp only
    rw [if_neg (by omega : ¬ title.length > YT_MAX_TITLE_LENGTH)]
    cases title with
    | nil => exact absurd rfl hne
    | cons c rest =>
      dsimp only
      rw [if_neg (hcase c rest rfl)]

/-- Witness for C10 amended at a concrete post and title. -/
theorem c10_amended_witness :
    (((fb_adapt_text_content sampleFbTextItem).content.text_content.map TextContent.text
        = some "Hello world this is a short post".toList ∧
      (fb_adapt_text_content sampleFbTextItem).metadata.map FbTextMetadata.is_within_limits
        = some true) ∧
      yt_adapt_title "My video".toList = "My video".toList) :=
  c10_amended sampleFbTextItem { text := "Hello world this is a short post".toList }
    "My video".toList rfl (by decide) (by decide) (by decide) (by decide)
    (fun c rest h => by injection h with h1 h2; subst h1; decide)

/-- Witness for C4 at a concrete over-long text and budget 12. -/
theorem c4_truncate_length_bounds_witness :
    1 ≤ 12 ∧
    ((fb_truncate_text "hello brave new world of adapters".toList 12).length
        ≤ 12 + ellipsisMarker.length ∧
      (ig_truncate_text "hello brave new world of adapters".toList 12).length
        ≤ 12 + ellipsisMarker.length ∧
      (yt_truncate_text "hello brave new world of adapters".toList 12).length
        ≤ 12 + ellipsisMarker.length ∧
      (li_truncate_text "hello brave new world of adapters".toList 12).length
        ≤ 12 + liMarker.length) :=
  ⟨by decide,
    (c4_truncate_length_bounds "hello brave new world of adapters".toList 12 (by decide)).2⟩

/-- Witness for C5 amended at a concrete over-long text and budget 10. -/
theorem c5_amended_witness :
    (1 ≤ 10 ∧ 10 < "hello world over budget".toList.length) ∧
    (CutsAtBoundary fb_truncate_text [ellipsisMarker] "hello world over budget".toList 10 ∧
      CutsAtBoundary ig_truncate_text [ellipsisMarker] "hello world over budget".toList 10 ∧
      CutsAtBoundary yt_truncate_text [ellipsisMarker, []] "hello world over budget".toList 10 ∧
      CutsAtBoundary li_truncate_text [liMarker, ' ' :: liMarker]
        "hello world over budget".toList 10) :=
  ⟨⟨by decide, by decide⟩,
    c5_amended "hello world over budget".toList 10 (by decide) (by decide)⟩

/-- Witness for C7 at a concrete brand with one style attribute. -/
theorem c7_witness :
    0 ≤ (check_consistency wsTokenizer wholeTokenizer
        (some { id := "b2".toList, name := "B2".toList,
                style_attributes := [{ name := "formal".toList, value := 1/2 }] })
        none "hello there".toList ContentType.text).consistency_score ∧
    (check_consistency wsTokenizer wholeTokenizer
        (some { id := "b2".toList, name := "B2".toList,
                style_attributes := [{ name := "formal".toList, value := 1/2 }] })
        none "hello there".toList ContentType.text).consistency_score ≤ 1 :=
  c7_consistency_score_in_unit_interval wsTokenizer wholeTokenizer
    { id := "b2".toList, name := "B2".toList,
      style_attributes := [{ name := "formal".toList, value := 1/2 }] }
    none "hello there".toList ContentType.text
    (by intro a ha; simp only [List.mem_singleton] at ha; subst ha; norm_num)
    (fun f h => by cases h)
